import Mathlib

/-!
Shallow embedding of the 6D microscopy array engine (`src/io/array_6d.rs`,
`src/io/generators.rs`, `src/io/formats.rs`) and proofs about it.

Modelling conventions:
* Rust `usize` values are modelled as `Nat`; where the source's arithmetic
  can overflow — the unsigned subtraction `extent - 1` on `extent = 0` in
  `get_frame`'s error paths, and the product `total_elements() * 4` in
  `validate`'s byte estimate — the release-profile wrapping semantics of
  Rust is modelled explicitly modulo `2^64` (`usizeSub1`,
  `Dimensions.total_bytes`); a debug build would panic at those operations
  instead.
* `f32`/`f64` sample and calibration values are modelled as exact rationals
  (`ℚ`): every arithmetic step of the source is mirrored structurally, with
  the floating-point roundings elided.  For the persistence codec, where the
  payload is bit-copied and never computed on, samples are modelled as their
  32-bit patterns (`Nat` below `2^32`).
* Transcendental `f32` operations (`exp`, `sin`, `cos`, `sqrt`) and the
  `fastrand` draw are parameters of the generator model (`FloatOps`): the
  generator definitions are functional in them, exactly as the source is
  functional in the library implementations of those operations.
* Fallible Rust functions returning `anyhow::Result` are modelled with
  `Except String`, carrying the very message strings the source formats.
  A Rust panic (reachable in `set_frame` through out-of-range `slice_mut`)
  is modelled by `Option.none` around the result.
-/

namespace Pyama

/-- Wrapping `usize` decrement: Rust release-profile semantics of
`extent - 1`, which wraps modulo `2 ^ 64` when `extent = 0`.  Used by the
error paths of `get_frame`. -/
def usizeSub1 (n : ℕ) : ℕ := (n + (2 ^ 64 - 1)) % 2 ^ 64

/-- `Dimensions` from `src/io/array_6d.rs`: six `usize` extents in TPZCYX
order. -/
structure Dimensions where
  time : ℕ
  position : ℕ
  z : ℕ
  channel : ℕ
  height : ℕ
  width : ℕ
deriving DecidableEq, Repr

namespace Dimensions

/-- `Dimensions::new`. -/
def new (time position z channel height width : ℕ) : Dimensions :=
  ⟨time, position, z, channel, height, width⟩

/-- `Dimensions::new_2d`: single z-plane. -/
def new_2d (time position channel height width : ℕ) : Dimensions :=
  new time position 1 channel height width

/-- `Dimensions::total_elements`: product of the six extents. -/
def total_elements (d : Dimensions) : ℕ :=
  d.time * d.position * d.z * d.channel * d.height * d.width

/-- `Dimensions::shape`: the six extents as an ordered sequence. -/
def shape (d : Dimensions) : List ℕ :=
  [d.time, d.position, d.z, d.channel, d.height, d.width]

/-- The `usize` value of `self.total_elements() * 4` as `validate`
computes it in the release profile: each wrapping `usize` multiplication
is multiplication modulo `2 ^ 64`, and their composition is the true
product reduced modulo `2 ^ 64`.  (A debug build would panic at the
first overflowing multiplication instead.) -/
def total_bytes (d : Dimensions) : ℕ :=
  d.total_elements * 4 % 2 ^ 64

/-- `Dimensions::validate`: zero-extent check first, then the memory
ceiling check on the (release-profile, wrapping) `total_elements * 4`
byte count floored to MiB. -/
def validate (d : Dimensions) : Except String Unit :=
  if d.time = 0 ∨ d.position = 0 ∨ d.z = 0 ∨
     d.channel = 0 ∨ d.height = 0 ∨ d.width = 0 then
    Except.error "All dimensions must be greater than 0"
  else
    let memory_mb := d.total_bytes / (1024 * 1024)
    if memory_mb > 1024 then
      Except.error ("Array would use " ++ toString memory_mb ++
        "MB memory, maximum is 1024MB")
    else
      Except.ok ()

end Dimensions

/-- Row-major flat offset of cell `(t,p,z,c,y,x)` under the TPZCYX layout:
the addressing scheme of `ndarray`'s standard layout used by the source's
`Array6<f32>`. -/
def layoutIndex (d : Dimensions) (t p z c y x : ℕ) : ℕ :=
  ((((t * d.position + p) * d.z + z) * d.channel + c) * d.height + y) * d.width + x

/-- Model of `ndarray::Array6<α>`: its own shape together with the flat
row-major buffer.  (In `ndarray` the buffer length always equals the shape
product; that fact is carried as an explicit hypothesis `NdArray6.wf` where
a proof needs it.) -/
structure NdArray6 (α : Type) where
  shape : List ℕ
  values : List α
deriving DecidableEq, Repr

/-- The internal `ndarray` invariant: buffer length equals shape product. -/
def NdArray6.wf {α : Type} (a : NdArray6 α) : Prop :=
  a.shape.length = 6 ∧ a.values.length = a.shape.prod

instance {α : Type} (a : NdArray6 α) : Decidable (NdArray6.wf a) := by
  unfold NdArray6.wf; infer_instance

/-- Model of `ndarray::ArrayView2<α>` / `Array2<α>` as passed to
`set_frame`: a 2D shape together with row-major values. -/
structure Frame (α : Type) where
  height : ℕ
  width : ℕ
  values : List α
deriving DecidableEq, Repr

/-- `Array6D` from `src/io/array_6d.rs`: the data buffer plus metadata. -/
structure Array6D (α : Type) where
  data : NdArray6 α
  dimensions : Dimensions
  pixel_size_um : ℚ
  time_interval_s : ℚ
  channel_names : List String
  data_type : String
deriving DecidableEq, Repr

namespace Array6D

/-- `Array6D::new`: checks the data's own shape against `dims.shape()` and
the channel-name count against the channel extent; performs no
`Dimensions::validate`. -/
def new {α : Type} (data : NdArray6 α) (dimensions : Dimensions)
    (pixel_size_um time_interval_s : ℚ) (channel_names : List String)
    (data_type : String) : Except String (Array6D α) :=
  if data.shape ≠ dimensions.shape then
    Except.error ("Data shape " ++ toString data.shape ++
      " does not match dimensions " ++ toString dimensions.shape)
  else if channel_names.length ≠ dimensions.channel then
    Except.error ("Number of channel names (" ++ toString channel_names.length ++
      ") does not match channel dimension (" ++ toString dimensions.channel ++ ")")
  else
    Except.ok ⟨data, dimensions, pixel_size_um, time_interval_s,
      channel_names, data_type⟩

/-- `Array6D::zeros`: validates the dimensions, then builds a zero-filled
buffer (`Array6::zeros(dims.shape())`) and delegates to `new`. -/
def zeros (dimensions : Dimensions) (pixel_size_um time_interval_s : ℚ)
    (channel_names : List String) (data_type : String) :
    Except String (Array6D ℚ) :=
  match dimensions.validate with
  | Except.error e => Except.error e
  | Except.ok _ =>
    let data : NdArray6 ℚ :=
      ⟨dimensions.shape, List.replicate dimensions.shape.prod (0 : ℚ)⟩
    new data dimensions pixel_size_um time_interval_s channel_names data_type

/-- `Array6D::get_frame`: four per-axis bounds checks in T,P,Z,C order,
each error message naming the axis and the wrapped `extent - 1` maximum;
on success the `(height, width)` row-major slice of the buffer. -/
def get_frame {α : Type} [Inhabited α] (a : Array6D α) (t p z c : ℕ) :
    Except String (List (List α)) :=
  if t ≥ a.dimensions.time then
    Except.error ("Time index " ++ toString t ++ " out of bounds (max: " ++
      toString (usizeSub1 a.dimensions.time) ++ ")")
  else if p ≥ a.dimensions.position then
    Except.error ("Position index " ++ toString p ++ " out of bounds (max: " ++
      toString (usizeSub1 a.dimensions.position) ++ ")")
  else if z ≥ a.dimensions.z then
    Except.error ("Z index " ++ toString z ++ " out of bounds (max: " ++
      toString (usizeSub1 a.dimensions.z) ++ ")")
  else if c ≥ a.dimensions.channel then
    Except.error ("Channel index " ++ toString c ++ " out of bounds (max: " ++
      toString (usizeSub1 a.dimensions.channel) ++ ")")
  else
    Except.ok ((List.range a.dimensions.height).map fun y =>
      (List.range a.dimensions.width).map fun x =>
        a.data.values.getD (layoutIndex a.dimensions t p z c y x) default)

/-- The element-by-element overwrite performed by
`self.data.slice_mut(s![t, p, z, c, .., ..]).assign(frame)`: every buffer
cell whose TPZCYX decomposition has block coordinates `(t,p,z,c)` receives
the frame value at its `(y,x)`; all other cells are untouched. -/
def writeFrame {α : Type} (vals : List α) (d : Dimensions) (t p z c : ℕ)
    (f : Frame α) : List α :=
  vals.enum.map fun iv =>
    let i := iv.1
    let x6 := i % d.width
    let i1 := i / d.width
    let y6 := i1 % d.height
    let i2 := i1 / d.height
    let c6 := i2 % d.channel
    let i3 := i2 / d.channel
    let z6 := i3 % d.z
    let i4 := i3 / d.z
    let p6 := i4 % d.position
    let t6 := i4 / d.position
    if t6 = t ∧ p6 = p ∧ z6 = z ∧ c6 = c then
      f.values.getD (y6 * f.width + x6) iv.2
    else iv.2

/-- `Array6D::set_frame`: the frame-shape check comes first and returns an
error; afterwards the source slices with `slice_mut(s![t,p,z,c,..,..])`,
which panics (modelled as `none`) whenever one of `t,p,z,c` is out of
range, and otherwise assigns the frame into the selected region. -/
def set_frame {α : Type} (a : Array6D α) (t p z c : ℕ) (f : Frame α) :
    Option (Except String (Array6D α)) :=
  if f.height ≠ a.dimensions.height ∨ f.width ≠ a.dimensions.width then
    some (Except.error ("Frame shape [" ++ toString f.height ++ ", " ++
      toString f.width ++ "] does not match expected [" ++
      toString a.dimensions.height ++ "x" ++ toString a.dimensions.width ++ "]"))
  else if t < a.dimensions.time ∧ p < a.dimensions.position ∧
          z < a.dimensions.z ∧ c < a.dimensions.channel then
    some (Except.ok
      { a with data := ⟨a.data.shape, writeFrame a.data.values a.dimensions t p z c f⟩ })
  else
    none

/-- Mutation through `Array6D::data_mut`: the method hands out
`&mut Array6<f32>`, through which a caller may replace the whole array
value (shape included) with no check whatsoever; this definition models
exactly that replacement. -/
def data_mut_assign {α : Type} (a : Array6D α) (newData : NdArray6 α) :
    Array6D α :=
  { a with data := newData }

/-- `Array6D::memory_usage`: `total_elements * size_of::<f32>()`. -/
def memory_usage {α : Type} (a : Array6D α) : ℕ :=
  a.dimensions.total_elements * 4

/-- The container invariant of the spec: buffer length equals
`dimensions.total_elements()`. -/
def bufferInv {α : Type} (a : Array6D α) : Prop :=
  a.data.values.length = a.dimensions.total_elements

instance {α : Type} (a : Array6D α) : Decidable (bufferInv a) := by
  unfold bufferInv; infer_instance

end Array6D

/-- `FrameStats` from `src/io/array_6d.rs`.  The source field `std_dev`
is `variance.sqrt()`; the model carries `variance` (its exact square), the
one field whose defining operation (`f64::sqrt`) has no exact rational
counterpart. -/
structure FrameStats where
  mean : ℚ
  median : ℚ
  variance : ℚ
  min : ℚ
  max : ℚ
  total_pixels : ℕ
  saturated_pixels : ℕ
  saturation_threshold : ℚ
deriving DecidableEq, Repr

namespace FrameStats

/-- `FrameStats::from_frame` on the flattened frame values, mirroring the
source step for step: empty-frame zero case; sorted copy; sum-based mean;
parity-split median; population variance (divisor `N`); sorted first/last
min/max; inclusive `>= threshold` saturation count. -/
def from_frame (values : List ℚ) (saturation_threshold : ℚ) : FrameStats :=
  let total_pixels := values.length
  if total_pixels = 0 then
    ⟨0, 0, 0, 0, 0, 0, 0, saturation_threshold⟩
  else
    let sorted_values := values.insertionSort (· ≤ ·)
    let sum := values.sum
    let mean := sum / (total_pixels : ℚ)
    let median :=
      if total_pixels % 2 = 0 then
        (sorted_values.getD (total_pixels / 2 - 1) 0 +
          sorted_values.getD (total_pixels / 2) 0) / 2
      else
        sorted_values.getD (total_pixels / 2) 0
    let variance :=
      (values.map fun x => (x - mean) ^ 2).sum / (total_pixels : ℚ)
    let min := sorted_values.getD 0 0
    let max := sorted_values.getD (total_pixels - 1) 0
    let saturated_pixels :=
      (values.filter fun x => saturation_threshold ≤ x).length
    ⟨mean, median, variance, min, max, total_pixels, saturated_pixels,
      saturation_threshold⟩

end FrameStats

/-! ## Generator model (`src/io/generators.rs`)

The source draws randomness from the process-global `fastrand` generator
and evaluates `f32` transcendentals.  The model threads the generator state
explicitly: a state is a `(seed, counter)` pair, `fastrand::seed(s)` resets
it to `(s, 0)`, and each `fastrand::f32()` call returns `rand seed counter`
for a caller-supplied draw function `rand` and bumps the counter.  The
transcendental operations are likewise caller-supplied functions, so every
generator definition is functional in them just as the source is
functional in the libm/fastrand implementations. -/

/-- State of the global `fastrand` generator: the last seed planted and
the number of draws made since. -/
structure RngState where
  seed : ℕ
  ctr : ℕ
deriving DecidableEq, Repr

/-- `fastrand::seed(n)`. -/
def RngState.reseed (n : ℕ) : RngState := ⟨n, 0⟩

/-- The `f32` operations the generator depends on: transcendentals and the
`fastrand::f32()` draw (as a function of seed and draw index). -/
structure FloatOps where
  fexp : ℚ → ℚ
  fsin : ℚ → ℚ
  fcos : ℚ → ℚ
  fsqrt : ℚ → ℚ
  rand : ℕ → ℕ → ℚ

/-- One `fastrand::f32()` call: the drawn value and the advanced state. -/
def FloatOps.draw (ops : FloatOps) (s : RngState) : ℚ × RngState :=
  (ops.rand s.seed s.ctr, ⟨s.seed, s.ctr + 1⟩)

/-- The `f32` value of `std::f32::consts::PI`. -/
def piF32 : ℚ := 13176795 / 4194304

/-- `PatternType` from `src/io/generators.rs`. -/
inductive PatternType where
  | uniform (value : ℚ)
  | gradient
  | circles
  | noise (min max : ℚ)
  | gaussianSpots (num_spots : ℕ) (intensity : ℚ)
  | sineWave (frequency amplitude : ℚ)
  | movingSpots (num_spots : ℕ) (speed : ℚ)
deriving DecidableEq, Repr

/-- `GeneratorConfig` from `src/io/generators.rs`. -/
structure GeneratorConfig where
  dimensions : Dimensions
  pixel_size_um : ℚ
  time_interval_s : ℚ
  channel_patterns : List (String × PatternType)
  data_type : String
  base_intensity : ℚ
  noise_level : ℚ
deriving DecidableEq, Repr

namespace ArrayGenerator

/-- The per-spot loop body of the `GaussianSpots` branch of
`generate_pixel_value`: reseed the global generator from
`spot_id * 12345 + t * 67890`, draw the spot's x, y and size, and add the
Gaussian contribution at the pixel. -/
def gaussSpotStep (ops : FloatOps) (dims : Dimensions) (t x y : ℕ)
    (intensity : ℚ) (acc : ℚ × RngState) (spot_id : ℕ) : ℚ × RngState :=
  let seed := spot_id * 12345 + t * 67890
  let s0 := RngState.reseed seed
  let d1 := ops.draw s0
  let d2 := ops.draw d1.2
  let d3 := ops.draw d2.2
  let spot_x := d1.1 * (dims.width : ℚ)
  let spot_y := d2.1 * (dims.height : ℚ)
  let sigma := 10 + d3.1 * 20
  let dx := (x : ℚ) - spot_x
  let dy := (y : ℚ) - spot_y
  let distance_sq := dx * dx + dy * dy
  let gaussian := ops.fexp (-distance_sq / (2 * sigma * sigma))
  (acc.1 + intensity * gaussian, d3.2)

/-- `ArrayGenerator::generate_pixel_value`, mirroring the source case by
case; patterns that call `fastrand` (`Noise` draws once, `GaussianSpots`
reseeds per spot and draws three times per spot) thread the generator
state, the others return it unchanged. -/
def generate_pixel_value (ops : FloatOps) (pattern : PatternType)
    (t _p _z x y : ℕ) (dims : Dimensions) (base_intensity : ℚ)
    (s : RngState) : ℚ × RngState :=
  let center_x : ℚ := (dims.width : ℚ) / 2
  let center_y : ℚ := (dims.height : ℚ) / 2
  let max_distance := ops.fsqrt (center_x ^ 2 + center_y ^ 2)
  match pattern with
  | .uniform value => (value, s)
  | .gradient =>
      let dx := (x : ℚ) / (dims.width : ℚ)
      let dy := (y : ℚ) / (dims.height : ℚ)
      (base_intensity * (dx + dy) / 2, s)
  | .circles =>
      let distance :=
        ops.fsqrt (((x : ℚ) - center_x) ^ 2 + ((y : ℚ) - center_y) ^ 2)
      let normalized_distance := distance / max_distance
      (base_intensity * max (1 - normalized_distance) 0, s)
  | .noise mn mx =>
      let d := ops.draw s
      (mn + d.1 * (mx - mn), d.2)
  | .gaussianSpots num_spots intensity =>
      (List.range num_spots).foldl (gaussSpotStep ops dims t x y intensity)
        (base_intensity * (1 / 10), s)
  | .sineWave frequency amplitude =>
      let phase := 2 * piF32 * frequency
      let wave_x := ops.fsin ((x : ℚ) * phase / (dims.width : ℚ))
      let wave_y := ops.fsin ((y : ℚ) * phase / (dims.height : ℚ))
      (base_intensity + amplitude * wave_x * wave_y, s)
  | .movingSpots num_spots speed =>
      ((List.range num_spots).foldl
        (fun v spot_id =>
          let angle := (t : ℚ) * speed +
            (spot_id : ℚ) * 2 * piF32 / (num_spots : ℚ)
          let radius : ℚ := 50
          let spot_x := center_x + radius * ops.fcos angle
          let spot_y := center_y + radius * ops.fsin angle
          let dx := (x : ℚ) - spot_x
          let dy := (y : ℚ) - spot_y
          let distance_sq := dx * dx + dy * dy
          let sigma : ℚ := 15
          let gaussian := ops.fexp (-distance_sq / (2 * sigma * sigma))
          v + 500 * gaussian)
        (base_intensity * (2 / 10)), s)

/-- The (t,p,z,y,x) iteration space of `generate_channel`'s five nested
loops, in the source's loop order. -/
def allCoords (d : Dimensions) : List (ℕ × ℕ × ℕ × ℕ × ℕ) :=
  (List.range d.time).flatMap fun t =>
  (List.range d.position).flatMap fun p =>
  (List.range d.z).flatMap fun z =>
  (List.range d.height).flatMap fun y =>
  (List.range d.width).map fun x => (t, p, z, y, x)

/-- The loop body of `generate_channel`: compute the pattern value, draw
one noise sample scaled by `noise_level`, clamp at zero, and store at the
TPZCYX offset of the channel being generated. -/
def genPixelStep (ops : FloatOps) (dims : Dimensions) (channel : ℕ)
    (pattern : PatternType) (base_intensity noise_level : ℚ)
    (acc : List ℚ × RngState) (coord : ℕ × ℕ × ℕ × ℕ × ℕ) :
    List ℚ × RngState :=
  let t := coord.1
  let p := coord.2.1
  let z := coord.2.2.1
  let y := coord.2.2.2.1
  let x := coord.2.2.2.2
  let vres := generate_pixel_value ops pattern t p z x y dims base_intensity acc.2
  let d := ops.draw vres.2
  let noise := (d.1 - 1 / 2) * 2 * noise_level
  let final_value := max (vres.1 + noise) 0
  (acc.1.set (layoutIndex dims t p z channel y x) final_value, d.2)

/-- `ArrayGenerator::generate_channel`: fill every (t,p,z,y,x) cell of the
given channel.  (The source returns `Ok(())` unconditionally; the model is
pure.) -/
def generate_channel (ops : FloatOps) (dims : Dimensions) (channel : ℕ)
    (pattern : PatternType) (base_intensity noise_level : ℚ)
    (acc : List ℚ × RngState) : List ℚ × RngState :=
  (allCoords dims).foldl
    (genPixelStep ops dims channel pattern base_intensity noise_level) acc

/-- The per-entry step of `generate`'s channel loop (one enumerated
channel pattern processed by `generate_channel`). -/
def chanStep (ops : FloatOps) (dims : Dimensions) (base nl : ℚ)
    (acc : List ℚ × RngState) (e : ℕ × (String × PatternType)) :
    List ℚ × RngState :=
  generate_channel ops dims e.1 e.2.2 base nl acc

/-- `ArrayGenerator::generate`: validate the dimensions, check the
channel-pattern count, fill a zero buffer channel by channel, and build
the container via `Array6D::new` with the configured channel names. -/
def generate (ops : FloatOps) (config : GeneratorConfig) (s0 : RngState) :
    Except String (Array6D ℚ) :=
  match config.dimensions.validate with
  | Except.error e => Except.error e
  | Except.ok _ =>
    if config.channel_patterns.length ≠ config.dimensions.channel then
      Except.error ("Number of channel patterns (" ++
        toString config.channel_patterns.length ++
        ") must match channel dimension (" ++
        toString config.dimensions.channel ++ ")")
    else
      let init : List ℚ := List.replicate config.dimensions.shape.prod 0
      let result := config.channel_patterns.enum.foldl
        (fun acc entry =>
          generate_channel ops config.dimensions entry.1 entry.2.2
            config.base_intensity config.noise_level acc)
        (init, s0)
      let channel_names := config.channel_patterns.map Prod.fst
      Array6D.new ⟨config.dimensions.shape, result.1⟩ config.dimensions
        config.pixel_size_um config.time_interval_s channel_names
        config.data_type

end ArrayGenerator

/-! ## Persistence codec (`src/io/formats.rs`)

The split format writes two artifacts: the JSON-serialized metadata at the
given path and the raw little-endian `f32` payload at the path with its
extension replaced by `data`.  The model represents the pair of files as a
`SplitFile` value holding the metadata structurally (serde JSON
round-trips every field of `ArrayMetadata` exactly) and the data artifact
as its byte list.  Samples are modelled by their 32-bit patterns
(`Nat < 2^32`); the source's raw-memory reinterpretation on a
little-endian host is the explicit 4-byte little-endian split below. -/

/-- `ArrayMetadata` from `src/io/formats.rs`. -/
structure ArrayMetadata where
  dimensions : Dimensions
  pixel_size_um : ℚ
  time_interval_s : ℚ
  channel_names : List String
  data_type : String
  format_version : String
  created_at : String
deriving DecidableEq, Repr

/-- `impl From<&Array6D> for ArrayMetadata`: fixed format version and
timestamp. -/
def ArrayMetadata.from_array {α : Type} (a : Array6D α) : ArrayMetadata :=
  ⟨a.dimensions, a.pixel_size_um, a.time_interval_s, a.channel_names,
    a.data_type, "1.0", "2024-01-01T00:00:00Z"⟩

/-- The four little-endian bytes of one `f32` sample's bit pattern. -/
def f32ToLEBytes (n : ℕ) : List ℕ :=
  [n % 256, n / 256 % 256, n / 65536 % 256, n / 16777216 % 256]

/-- The raw data artifact: each sample as four little-endian bytes, in
buffer order. -/
def bytesOfSamples (vs : List ℕ) : List ℕ := vs.flatMap f32ToLEBytes

/-- Reinterpreting the byte buffer as a sequence of `f32` bit patterns,
four little-endian bytes at a time (trailing partial groups dropped, as a
`slice::from_raw_parts` over whole elements would). -/
def samplesOfBytes : List ℕ → List ℕ
  | b0 :: b1 :: b2 :: b3 :: rest =>
      (b0 + 256 * b1 + 65536 * b2 + 16777216 * b3) :: samplesOfBytes rest
  | _ => []

/-- The two on-disk artifacts produced by `save_split` for one path. -/
structure SplitFile where
  meta : ArrayMetadata
  dataBytes : List ℕ
deriving DecidableEq, Repr

/-- `save_split`: project the metadata, write it, and write the buffer as
raw little-endian `f32` bytes.  (The source's contiguity check always
passes for the standard-layout arrays of this model, and file-creation
failures are outside the model.) -/
def save_split (a : Array6D ℕ) : SplitFile :=
  ⟨ArrayMetadata.from_array a, bytesOfSamples a.data.values⟩

/-- `load_split`: parse the metadata, read the data artifact, check its
byte length against `total_elements * 4`, reinterpret as `f32` samples,
rebuild the `Array6` via `from_shape_vec` (which fails unless the vector
length matches the shape product), and construct the container through
`Array6D::new`. -/
def load_split (file : SplitFile) : Except String (Array6D ℕ) :=
  let metadata := file.meta
  let buffer := file.dataBytes
  let expected_elements := metadata.dimensions.total_elements
  let expected_bytes := expected_elements * 4
  if buffer.length ≠ expected_bytes then
    Except.error ("Data file size mismatch: expected " ++
      toString expected_bytes ++ " bytes, got " ++ toString buffer.length)
  else
    let data_slice := samplesOfBytes buffer
    if data_slice.length ≠ metadata.dimensions.shape.prod then
      Except.error "from_shape_vec: vector length does not match shape"
    else
      Array6D.new ⟨metadata.dimensions.shape, data_slice⟩ metadata.dimensions
        metadata.pixel_size_um metadata.time_interval_s
        metadata.channel_names metadata.data_type

/-- `save_array` forwards to `save_split`. -/
def save_array (a : Array6D ℕ) : SplitFile := save_split a

/-- `load_array` forwards to `load_split`. -/
def load_array (file : SplitFile) : Except String (Array6D ℕ) :=
  load_split file

/-! ## Derived views of the generator used by the proofs -/

namespace ArrayGenerator

/-- The flat offset written by `genPixelStep` at a coordinate. -/
def coordIndex (dims : Dimensions) (channel : ℕ)
    (coord : ℕ × ℕ × ℕ × ℕ × ℕ) : ℕ :=
  layoutIndex dims coord.1 coord.2.1 coord.2.2.1 channel coord.2.2.2.1 coord.2.2.2.2

/-- The sample value written by `genPixelStep` at a coordinate from
generator state `s`: pattern value plus scaled noise draw, clamped at
zero. -/
def pixelValueAt (ops : FloatOps) (dims : Dimensions) (pattern : PatternType)
    (base_intensity noise_level : ℚ) (coord : ℕ × ℕ × ℕ × ℕ × ℕ)
    (s : RngState) : ℚ :=
  let vres := generate_pixel_value ops pattern coord.1 coord.2.1 coord.2.2.1
    coord.2.2.2.2 coord.2.2.2.1 dims base_intensity s
  max (vres.1 + ((ops.draw vres.2).1 - 1 / 2) * 2 * noise_level) 0

/-- The generator state after `genPixelStep` at a coordinate. -/
def pixelStateAt (ops : FloatOps) (dims : Dimensions) (pattern : PatternType)
    (base_intensity : ℚ) (coord : ℕ × ℕ × ℕ × ℕ × ℕ) (s : RngState) :
    RngState :=
  (ops.draw (generate_pixel_value ops pattern coord.1 coord.2.1 coord.2.2.1
    coord.2.2.2.2 coord.2.2.2.1 dims base_intensity s).2).2

/-- The contribution of one Gaussian spot to a pixel, written directly in
terms of the reseeded draws (seed `spot_id * 12345 + t * 67890`, draw
indices 0, 1, 2 for x, y, size). -/
def gsContrib (ops : FloatOps) (dims : Dimensions) (t x y : ℕ)
    (intensity : ℚ) (spot_id : ℕ) : ℚ :=
  let seed := spot_id * 12345 + t * 67890
  let spot_x := ops.rand seed 0 * (dims.width : ℚ)
  let spot_y := ops.rand seed 1 * (dims.height : ℚ)
  let sigma := 10 + ops.rand seed 2 * 20
  let dx := (x : ℚ) - spot_x
  let dy := (y : ℚ) - spot_y
  let distance_sq := dx * dx + dy * dy
  intensity * ops.fexp (-distance_sq / (2 * sigma * sigma))

/-- The deterministic `GaussianSpots` pattern value at a pixel: the low
background plus all spot contributions.  Depends on `(t, x, y)` but not on
the incoming generator state, because every spot iteration reseeds. -/
def gsValue (ops : FloatOps) (dims : Dimensions) (t x y : ℕ)
    (num_spots : ℕ) (intensity base_intensity : ℚ) : ℚ :=
  (List.range num_spots).foldl
    (fun v k => v + gsContrib ops dims t x y intensity k)
    (base_intensity * (1 / 10))

/-- The noise added to every pixel of time index `t` in a `GaussianSpots`
channel with `num_spots = n ≥ 1`: after the per-pixel value computation
the generator state is `(seed of spot n-1 at t, 3)`, so the noise draw is
`rand ((n-1) * 12345 + t * 67890) 3`. -/
def gsNoise (ops : FloatOps) (num_spots : ℕ) (noise_level : ℚ) (t : ℕ) : ℚ :=
  (ops.rand ((num_spots - 1) * 12345 + t * 67890) 3 - 1 / 2) * 2 * noise_level

end ArrayGenerator

/-! ## Concrete instances used by counterexamples and witnesses -/

/-- A trivial instantiation of the generator's float operations: all
transcendentals constant 1, all draws 0 (a legal value of
`fastrand::f32()`, whose range is `[0, 1)`). -/
def constOps : FloatOps :=
  ⟨fun _ => 1, fun _ => 1, fun _ => 1, fun _ => 1, fun _ _ => 0⟩

/-- A float-operation instantiation whose `exp` is exact at the two kinds
of argument the inspected cells of the counterexample configurations
produce: `exp 0 = 1` (exact in `f32`) and `exp q = 0` for the other
arguments that arise there (which are at most `-112.5`, where `f32` `exp`
underflows to exactly `+0.0`).  Draws are all 0. -/
def stepOps : FloatOps :=
  ⟨fun q => if q = 0 then 1 else 0, fun _ => 1, fun _ => 1, fun _ => 1,
    fun _ _ => 0⟩

/-- Uniform(-1) channel, noise 0: exercises the final `.max(0.0)` clamp. -/
def cfgUniformNeg : GeneratorConfig :=
  ⟨Dimensions.new 1 1 1 1 1 1, 65 / 100, 1, [("Ch1", PatternType.uniform (-1))],
    "uint16", 100, 0⟩

/-- Uniform(42) channel, noise 0. -/
def cfgUniformPos : GeneratorConfig :=
  ⟨Dimensions.new 1 1 1 1 1 1, 65 / 100, 1, [("Ch1", PatternType.uniform 42)],
    "uint16", 100, 0⟩

/-- Gradient channel on a 2x2 frame, noise 0. -/
def cfgGradient : GeneratorConfig :=
  ⟨Dimensions.new 1 1 1 1 2 2, 65 / 100, 1, [("Ch1", PatternType.gradient)],
    "uint16", 100, 0⟩

/-- GaussianSpots channel (1 spot, intensity 10) on a 1x2 frame, base 100,
noise 5: no clamping occurs (value 20, noise -5). -/
def cfgGauss : GeneratorConfig :=
  ⟨Dimensions.new 1 1 1 1 1 2, 65 / 100, 1,
    [("Ch1", PatternType.gaussianSpots 1 10)], "uint16", 100, 5⟩

/-- The container a successful `generate` run returns (the shape-checked
`Array6D::new` applied to the channel-by-channel fold output). -/
def generateOut (ops : FloatOps) (config : GeneratorConfig) (s0 : RngState) :
    Array6D ℚ :=
  ⟨⟨config.dimensions.shape,
    (config.channel_patterns.enum.foldl
      (ArrayGenerator.chanStep ops config.dimensions config.base_intensity
        config.noise_level)
      (List.replicate config.dimensions.shape.prod 0, s0)).1⟩,
   config.dimensions, config.pixel_size_um, config.time_interval_s,
   config.channel_patterns.map Prod.fst, config.data_type⟩

/-- GaussianSpots channel (1 spot, intensity 10) on a 151x1 frame, base 0,
noise 5: with all draws 0 the spot sits at pixel (0,0) with sigma 10, so
the pattern value is 10 at y=0 (`exp 0 = 1`, exact in `f32`) and 0 at
y=150 (`exp (-112.5)` underflows to `+0.0` in `f32`), while the noise is
-5 everywhere; the clamp turns (10-5, 0-5) into (5, 0). -/
def cfgGaussTall : GeneratorConfig :=
  ⟨Dimensions.new 1 1 1 1 151 1, 65 / 100, 1,
    [("Ch1", PatternType.gaussianSpots 1 10)], "uint16", 0, 5⟩

/-- A 1x1x1x1x1x1 container with a single sample 0, used to exhibit
`set_frame`'s panic on out-of-range indices. -/
def c2A : Array6D ℚ :=
  ⟨⟨[1, 1, 1, 1, 1, 1], [0]⟩, Dimensions.new 1 1 1 1 1 1, 65 / 100, 1,
    ["Ch1"], "uint16"⟩

/-- A replacement `Array6` of a different shape and length, assignable
through `data_mut` with no check. -/
def c6Bad : NdArray6 ℚ := ⟨[1, 1, 1, 1, 1, 2], [1, 2]⟩

/-- A 1x1x1x1x1x1 container satisfying the buffer invariant, used to
exhibit its breakage through `data_mut`. -/
def c6A : Array6D ℚ :=
  ⟨⟨[1, 1, 1, 1, 1, 1], [0]⟩, Dimensions.new 1 1 1 1 1 1, 65 / 100, 1,
    ["Ch1"], "uint16"⟩

/-- A 1x1x1x1x1x1 bit-pattern container for the round-trip witness. -/
def aBits : Array6D ℕ :=
  ⟨⟨[1, 1, 1, 1, 1, 1], [3212836864]⟩, Dimensions.new 1 1 1 1 1 1, 65 / 100,
    1, ["Ch1"], "float32"⟩

/-! ## Arithmetic and layout lemmas -/

lemma shape_prod (d : Dimensions) : d.shape.prod = d.total_elements := by
  simp [Dimensions.shape, Dimensions.total_elements]
  ring

lemma usizeSub1_of_pos {n : ℕ} (h1 : 0 < n) (h2 : n < 2 ^ 64) :
    usizeSub1 n = n - 1 := by
  unfold usizeSub1
  omega

lemma usizeSub1_zero : usizeSub1 0 = 2 ^ 64 - 1 := by
  unfold usizeSub1
  omega

lemma mixedRadix_lt {a A b B : ℕ} (ha : a < A) (hb : b < B) :
    a * B + b < A * B := by
  have h1 : a + 1 ≤ A := ha
  calc a * B + b < a * B + B := by omega
    _ = (a + 1) * B := by ring
    _ ≤ A * B := Nat.mul_le_mul_right B h1

lemma layoutIndex_lt (d : Dimensions) {t p z c y x : ℕ}
    (ht : t < d.time) (hp : p < d.position) (hz : z < d.z)
    (hc : c < d.channel) (hy : y < d.height) (hx : x < d.width) :
    layoutIndex d t p z c y x < d.total_elements := by
  unfold layoutIndex Dimensions.total_elements
  exact mixedRadix_lt (mixedRadix_lt (mixedRadix_lt (mixedRadix_lt
    (mixedRadix_lt ht hp) hz) hc) hy) hx

lemma mixedRadix_mod {acc j n : ℕ} (h : j < n) : (acc * n + j) % n = j := by
  rw [Nat.mul_comm acc n, Nat.mul_add_mod]
  exact Nat.mod_eq_of_lt h

lemma mixedRadix_div {acc j n : ℕ} (h : j < n) : (acc * n + j) / n = acc := by
  rw [Nat.mul_comm acc n, Nat.mul_add_div (by omega : 0 < n),
    Nat.div_eq_of_lt h]
  omega

lemma layoutIndex_decomp (d : Dimensions) {t p z c y x : ℕ}
    (hp : p < d.position) (hz : z < d.z) (hc : c < d.channel)
    (hy : y < d.height) (hx : x < d.width) :
    layoutIndex d t p z c y x % d.width = x ∧
    layoutIndex d t p z c y x / d.width % d.height = y ∧
    layoutIndex d t p z c y x / d.width / d.height % d.channel = c ∧
    layoutIndex d t p z c y x / d.width / d.height / d.channel % d.z = z ∧
    layoutIndex d t p z c y x / d.width / d.height / d.channel / d.z
      % d.position = p ∧
    layoutIndex d t p z c y x / d.width / d.height / d.channel / d.z
      / d.position = t := by
  unfold layoutIndex
  rw [mixedRadix_mod hx, mixedRadix_div hx, mixedRadix_mod hy,
    mixedRadix_div hy, mixedRadix_mod hc, mixedRadix_div hc,
    mixedRadix_mod hz, mixedRadix_div hz, mixedRadix_mod hp,
    mixedRadix_div hp]
  exact ⟨rfl, rfl, rfl, rfl, rfl, rfl⟩

lemma layoutIndex_inj (d : Dimensions) {t p z c y x t' p' z' c' y' x' : ℕ}
    (hp : p < d.position) (hz : z < d.z) (hc : c < d.channel)
    (hy : y < d.height) (hx : x < d.width)
    (hp' : p' < d.position) (hz' : z' < d.z) (hc' : c' < d.channel)
    (hy' : y' < d.height) (hx' : x' < d.width)
    (heq : layoutIndex d t p z c y x = layoutIndex d t' p' z' c' y' x') :
    t = t' ∧ p = p' ∧ z = z' ∧ c = c' ∧ y = y' ∧ x = x' := by
  obtain ⟨a1, a2, a3, a4, a5, a6⟩ := layoutIndex_decomp d hp hz hc hy hx
  obtain ⟨b1, b2, b3, b4, b5, b6⟩ := layoutIndex_decomp d hp' hz' hc' hy' hx'
  rw [heq] at a1 a2 a3 a4 a5 a6
  exact ⟨a6.symm.trans b6, a5.symm.trans b5, a4.symm.trans b4,
    a3.symm.trans b3, a2.symm.trans b2, a1.symm.trans b1⟩

/-! ## Generic lemmas about folds that write single cells -/

lemma foldl_set_length {σ χ : Type}
    (step : List ℚ × σ → χ → List ℚ × σ) (J : χ → ℕ) (W : χ → σ → ℚ)
    (S : χ → σ → σ)
    (hstep : ∀ vs s c, step (vs, s) c = (vs.set (J c) (W c s), S c s)) :
    ∀ (L : List χ) (vs : List ℚ) (s : σ),
      ((L.foldl step (vs, s)).1).length = vs.length := by
  intro L
  induction L with
  | nil => intro vs s; rfl
  | cons c L ih =>
    intro vs s
    rw [List.foldl_cons, hstep, ih, List.length_set]

lemma foldl_set_preserve {σ χ : Type}
    (step : List ℚ × σ → χ → List ℚ × σ) (J : χ → ℕ) (W : χ → σ → ℚ)
    (S : χ → σ → σ)
    (hstep : ∀ vs s c, step (vs, s) c = (vs.set (J c) (W c s), S c s))
    (i : ℕ) (v : ℚ) :
    ∀ (L : List χ), (∀ c ∈ L, J c = i → ∀ s, W c s = v) →
      ∀ (vs : List ℚ) (s : σ), vs.getD i 0 = v →
        ((L.foldl step (vs, s)).1).getD i 0 = v := by
  intro L
  induction L with
  | nil => intro _ vs s h; exact h
  | cons c L ih =>
    intro hcons vs s h
    rw [List.foldl_cons, hstep]
    apply ih (fun c' hc' => hcons c' (List.mem_cons_of_mem _ hc'))
    rw [List.getD_eq_getElem?_getD] at h ⊢
    by_cases hJ : J c = i
    · rw [hJ, List.getElem?_set_self']
      cases hvs : vs[i]? with
      | none => rw [hvs] at h; simpa using h
      | some w => simp [hcons c (List.mem_cons_self c L) hJ]
    · rw [List.getElem?_set_ne hJ]
      exact h

lemma foldl_set_establish {σ χ : Type}
    (step : List ℚ × σ → χ → List ℚ × σ) (J : χ → ℕ) (W : χ → σ → ℚ)
    (S : χ → σ → σ)
    (hstep : ∀ vs s c, step (vs, s) c = (vs.set (J c) (W c s), S c s))
    (i : ℕ) (v : ℚ) :
    ∀ (L : List χ), (∀ c ∈ L, J c = i → ∀ s, W c s = v) →
      (∃ c ∈ L, J c = i) →
      ∀ (vs : List ℚ) (s : σ), i < vs.length →
        ((L.foldl step (vs, s)).1).getD i 0 = v := by
  intro L
  induction L with
  | nil =>
    rintro _ ⟨c, hc, _⟩
    cases hc
  | cons c L ih =>
    intro hcons hex vs s hi
    rw [List.foldl_cons, hstep]
    by_cases hJ : J c = i
    · apply foldl_set_preserve step J W S hstep i v L
        (fun c' hc' => hcons c' (List.mem_cons_of_mem _ hc'))
      rw [List.getD_eq_getElem?_getD, hJ, List.getElem?_set_self',
        List.getElem?_eq_getElem hi]
      simp [hcons c (List.mem_cons_self c L) hJ]
    · obtain ⟨c', hc', hJ'⟩ := hex
      have hc'L : c' ∈ L := by
        rcases List.mem_cons.mp hc' with h | h
        · exact absurd (h ▸ hJ') hJ
        · exact h
      apply ih (fun c'' hc'' => hcons c'' (List.mem_cons_of_mem _ hc''))
        ⟨c', hc'L, hJ'⟩
      rw [List.length_set]
      exact hi

/-! ## Lemmas about the generator -/

namespace ArrayGenerator

lemma genPixelStep_eq (ops : FloatOps) (dims : Dimensions) (channel : ℕ)
    (pattern : PatternType) (base nl : ℚ) (vs : List ℚ) (s : RngState)
    (coord : ℕ × ℕ × ℕ × ℕ × ℕ) :
    genPixelStep ops dims channel pattern base nl (vs, s) coord =
      (vs.set (coordIndex dims channel coord)
        (pixelValueAt ops dims pattern base nl coord s),
       pixelStateAt ops dims pattern base coord s) := rfl

lemma pixelValueAt_uniform (ops : FloatOps) (dims : Dimensions) (v base : ℚ)
    (coord : ℕ × ℕ × ℕ × ℕ × ℕ) (s : RngState) :
    pixelValueAt ops dims (PatternType.uniform v) base 0 coord s = max v 0 := by
  unfold pixelValueAt generate_pixel_value
  simp

lemma pixelValueAt_gradient (ops : FloatOps) (dims : Dimensions) (base : ℚ)
    (coord : ℕ × ℕ × ℕ × ℕ × ℕ) (s : RngState) :
    pixelValueAt ops dims PatternType.gradient base 0 coord s =
      max (base * ((coord.2.2.2.2 : ℚ) / (dims.width : ℚ) +
        (coord.2.2.2.1 : ℚ) / (dims.height : ℚ)) / 2) 0 := by
  unfold pixelValueAt generate_pixel_value
  simp

lemma gaussSpotStep_eq (ops : FloatOps) (dims : Dimensions) (t x y : ℕ)
    (intensity : ℚ) (acc : ℚ × RngState) (k : ℕ) :
    gaussSpotStep ops dims t x y intensity acc k =
      (acc.1 + gsContrib ops dims t x y intensity k,
       ⟨k * 12345 + t * 67890, 3⟩) := rfl

lemma gauss_fold_fst (ops : FloatOps) (dims : Dimensions) (t x y : ℕ)
    (intensity : ℚ) :
    ∀ (L : List ℕ) (a : ℚ) (s : RngState),
      ((L.foldl (gaussSpotStep ops dims t x y intensity) (a, s)).1) =
        L.foldl (fun v k => v + gsContrib ops dims t x y intensity k) a := by
  intro L
  induction L with
  | nil => intro a s; rfl
  | cons k L ih =>
    intro a s
    rw [List.foldl_cons, gaussSpotStep_eq, List.foldl_cons]
    exact ih _ _

lemma gauss_fold_snd (ops : FloatOps) (dims : Dimensions) (t x y : ℕ)
    (intensity : ℚ) (m : ℕ) (a : ℚ) (s : RngState) :
    ((List.range (m + 1)).foldl (gaussSpotStep ops dims t x y intensity)
      (a, s)).2 = ⟨m * 12345 + t * 67890, 3⟩ := by
  rw [List.range_succ, List.foldl_append, List.foldl_cons, List.foldl_nil,
    gaussSpotStep_eq]

lemma generate_pixel_value_gauss (ops : FloatOps) (dims : Dimensions)
    (t p z x y : ℕ) (n : ℕ) (intensity base : ℚ) (s : RngState)
    (hn : n ≠ 0) :
    generate_pixel_value ops (PatternType.gaussianSpots n intensity)
      t p z x y dims base s =
      (gsValue ops dims t x y n intensity base,
       ⟨(n - 1) * 12345 + t * 67890, 3⟩) := by
  obtain ⟨m, rfl⟩ := Nat.exists_eq_succ_of_ne_zero hn
  unfold generate_pixel_value gsValue
  refine Prod.ext ?_ ?_
  · exact gauss_fold_fst ops dims t x y intensity _ _ s
  · rw [gauss_fold_snd]
    simp

lemma pixelValueAt_gauss (ops : FloatOps) (dims : Dimensions) (n : ℕ)
    (intensity base nl : ℚ) (coord : ℕ × ℕ × ℕ × ℕ × ℕ) (s : RngState)
    (hn : n ≠ 0) :
    pixelValueAt ops dims (PatternType.gaussianSpots n intensity) base nl
      coord s =
      max (gsValue ops dims coord.1 coord.2.2.2.2 coord.2.2.2.1 n intensity
        base + gsNoise ops n nl coord.1) 0 := by
  unfold pixelValueAt
  rw [generate_pixel_value_gauss ops dims coord.1 coord.2.1 coord.2.2.1
    coord.2.2.2.2 coord.2.2.2.1 n intensity base s hn]
  rfl

lemma mem_allCoords (d : Dimensions) (coord : ℕ × ℕ × ℕ × ℕ × ℕ) :
    coord ∈ allCoords d ↔
      coord.1 < d.time ∧ coord.2.1 < d.position ∧ coord.2.2.1 < d.z ∧
      coord.2.2.2.1 < d.height ∧ coord.2.2.2.2 < d.width := by
  obtain ⟨t, p, z, y, x⟩ := coord
  simp only [allCoords, List.mem_flatMap, List.mem_range, List.mem_map,
    Prod.mk.injEq]
  constructor
  · rintro ⟨t', ht', p', hp', z', hz', y', hy', x', hx', rfl, rfl, rfl, rfl, rfl⟩
    exact ⟨ht', hp', hz', hy', hx'⟩
  · rintro ⟨ht, hp, hz, hy, hx⟩
    exact ⟨t, ht, p, hp, z, hz, y, hy, x, hx, rfl, rfl, rfl, rfl, rfl⟩

lemma coordIndex_collision (dims : Dimensions) {c1 c2 : ℕ}
    (hc1 : c1 < dims.channel) (hc2 : c2 < dims.channel)
    {co1 co2 : ℕ × ℕ × ℕ × ℕ × ℕ}
    (h1 : co1 ∈ allCoords dims) (h2 : co2 ∈ allCoords dims)
    (he : coordIndex dims c1 co1 = coordIndex dims c2 co2) :
    c1 = c2 ∧ co1 = co2 := by
  rw [mem_allCoords] at h1 h2
  obtain ⟨e1, e2, e3, e4, e5, e6⟩ := layoutIndex_inj dims
    h1.2.1 h1.2.2.1 hc1 h1.2.2.2.1 h1.2.2.2.2
    h2.2.1 h2.2.2.1 hc2 h2.2.2.2.1 h2.2.2.2.2 he
  refine ⟨e4, ?_⟩
  obtain ⟨t1, p1, z1, y1, x1⟩ := co1
  obtain ⟨t2, p2, z2, y2, x2⟩ := co2
  simp only [Prod.mk.injEq]
  exact ⟨e1, e2, e3, e5, e6⟩

lemma generate_channel_length (ops : FloatOps) (dims : Dimensions)
    (channel : ℕ) (pattern : PatternType) (base nl : ℚ) (vs : List ℚ)
    (s : RngState) :
    ((generate_channel ops dims channel pattern base nl (vs, s)).1).length =
      vs.length := by
  unfold generate_channel
  exact foldl_set_length _ (coordIndex dims channel)
    (pixelValueAt ops dims pattern base nl)
    (pixelStateAt ops dims pattern base)
    (fun vs' s' coord => genPixelStep_eq ops dims channel pattern base nl
      vs' s' coord) (allCoords dims) vs s

lemma channels_fold_length (ops : FloatOps) (dims : Dimensions)
    (base nl : ℚ) :
    ∀ (CL : List (ℕ × (String × PatternType))) (vs : List ℚ) (s : RngState),
      ((CL.foldl (chanStep ops dims base nl) (vs, s)).1).length =
        vs.length := by
  intro CL
  induction CL with
  | nil => intro vs s; rfl
  | cons e CL ih =>
    intro vs s
    rw [List.foldl_cons]
    have h := generate_channel_length ops dims e.1 e.2.2 base nl vs s
    calc ((CL.foldl (chanStep ops dims base nl)
            (chanStep ops dims base nl (vs, s) e)).1).length
        = (((chanStep ops dims base nl (vs, s) e).1)).length := by
          have := ih (chanStep ops dims base nl (vs, s) e).1
            (chanStep ops dims base nl (vs, s) e).2
          simpa using this
      _ = vs.length := h

lemma channels_fold_preserve (ops : FloatOps) (dims : Dimensions)
    (base nl : ℚ) (c : ℕ) (pat : PatternType)
    (k : ℕ × ℕ × ℕ × ℕ × ℕ → ℚ)
    (hk : ∀ coord s, pixelValueAt ops dims pat base nl coord s = k coord)
    (hc : c < dims.channel) (coord : ℕ × ℕ × ℕ × ℕ × ℕ)
    (hcoord : coord ∈ allCoords dims) :
    ∀ (CL : List (ℕ × (String × PatternType))),
      (∀ e ∈ CL, e.1 < dims.channel) →
      (∀ e ∈ CL, e.1 = c → e.2.2 = pat) →
      ∀ (vs : List ℚ) (s : RngState),
        vs.getD (coordIndex dims c coord) 0 = k coord →
        ((CL.foldl (chanStep ops dims base nl) (vs, s)).1).getD
          (coordIndex dims c coord) 0 = k coord := by
  intro CL
  induction CL with
  | nil => intro _ _ vs s h; exact h
  | cons e CL ih =>
    intro hch hpat vs s h
    rw [List.foldl_cons]
    have hpass : ((chanStep ops dims base nl (vs, s) e).1).getD
        (coordIndex dims c coord) 0 = k coord := by
      unfold chanStep generate_channel
      apply foldl_set_preserve _ (coordIndex dims e.1)
        (pixelValueAt ops dims e.2.2 base nl)
        (pixelStateAt ops dims e.2.2 base)
        (fun vs' s' co => genPixelStep_eq ops dims e.1 e.2.2 base nl vs' s' co)
        (coordIndex dims c coord) (k coord) (allCoords dims) ?_ vs s h
      intro co hco hJ s'
      obtain ⟨hec, hcoeq⟩ := coordIndex_collision dims
        (hch e (List.mem_cons_self e CL)) hc hco hcoord hJ
      rw [hpat e (List.mem_cons_self e CL) hec, hk, hcoeq]
    have := ih (fun e' he' => hch e' (List.mem_cons_of_mem _ he'))
      (fun e' he' => hpat e' (List.mem_cons_of_mem _ he'))
      (chanStep ops dims base nl (vs, s) e).1
      (chanStep ops dims base nl (vs, s) e).2 hpass
    simpa using this

lemma channels_fold_cell (ops : FloatOps) (dims : Dimensions)
    (base nl : ℚ) (c : ℕ) (pat : PatternType)
    (k : ℕ × ℕ × ℕ × ℕ × ℕ → ℚ)
    (hk : ∀ coord s, pixelValueAt ops dims pat base nl coord s = k coord)
    (hc : c < dims.channel) (coord : ℕ × ℕ × ℕ × ℕ × ℕ)
    (hcoord : coord ∈ allCoords dims) :
    ∀ (CL : List (ℕ × (String × PatternType))),
      (∀ e ∈ CL, e.1 < dims.channel) →
      (∀ e ∈ CL, e.1 = c → e.2.2 = pat) →
      (∃ e ∈ CL, e.1 = c) →
      ∀ (vs : List ℚ) (s : RngState),
        coordIndex dims c coord < vs.length →
        ((CL.foldl (chanStep ops dims base nl) (vs, s)).1).getD
          (coordIndex dims c coord) 0 = k coord := by
  intro CL
  induction CL with
  | nil => rintro _ _ ⟨e, he, _⟩; cases he
  | cons e CL ih =>
    intro hch hpat hex vs s hi
    rw [List.foldl_cons]
    by_cases hec : e.1 = c
    · have hpass : ((chanStep ops dims base nl (vs, s) e).1).getD
          (coordIndex dims c coord) 0 = k coord := by
        unfold chanStep generate_channel
        rw [hec, hpat e (List.mem_cons_self e CL) hec]
        apply foldl_set_establish _ (coordIndex dims c)
          (pixelValueAt ops dims pat base nl)
          (pixelStateAt ops dims pat base)
          (fun vs' s' co => genPixelStep_eq ops dims c pat base nl vs' s' co)
          (coordIndex dims c coord) (k coord) (allCoords dims) ?_
          ⟨coord, hcoord, rfl⟩ vs s hi
        intro co hco hJ s'
        obtain ⟨-, hcoeq⟩ := coordIndex_collision dims hc hc hco hcoord hJ
        rw [hk, hcoeq]
      have := channels_fold_preserve ops dims base nl c pat k hk hc coord
        hcoord CL (fun e' he' => hch e' (List.mem_cons_of_mem _ he'))
        (fun e' he' => hpat e' (List.mem_cons_of_mem _ he'))
        (chanStep ops dims base nl (vs, s) e).1
        (chanStep ops dims base nl (vs, s) e).2 hpass
      simpa using this
    · obtain ⟨e', he', hec'⟩ := hex
      have he'CL : e' ∈ CL := by
        rcases List.mem_cons.mp he' with h | h
        · exact absurd (h ▸ hec') hec
        · exact h
      have hlen : coordIndex dims c coord <
          ((chanStep ops dims base nl (vs, s) e).1).length := by
        unfold chanStep
        rw [generate_channel_length]
        exact hi
      have := ih (fun e'' he'' => hch e'' (List.mem_cons_of_mem _ he''))
        (fun e'' he'' => hpat e'' (List.mem_cons_of_mem _ he''))
        ⟨e', he'CL, hec'⟩
        (chanStep ops dims base nl (vs, s) e).1
        (chanStep ops dims base nl (vs, s) e).2 hlen
      simpa using this

lemma generate_ok_elim (ops : FloatOps) (config : GeneratorConfig)
    (s0 : RngState) (a : Array6D ℚ)
    (hgen : generate ops config s0 = Except.ok a) :
    config.dimensions.validate = Except.ok () ∧
    config.channel_patterns.length = config.dimensions.channel ∧
    a = generateOut ops config s0 := by
  unfold generateOut
  unfold generate at hgen
  cases hval : config.dimensions.validate with
  | error e =>
    rw [hval] at hgen
    cases hgen
  | ok u =>
    cases u
    rw [hval] at hgen
    by_cases hcnt : config.channel_patterns.length = config.dimensions.channel
    · refine ⟨rfl, hcnt, ?_⟩
      rw [if_neg (by simp [hcnt])] at hgen
      unfold Array6D.new at hgen
      rw [if_neg (by simp), if_neg (by simp [List.length_map, hcnt])] at hgen
      cases hgen
      rfl
    · exfalso
      rw [if_pos (by simp [hcnt])] at hgen
      cases hgen

lemma generate_eq_ok (ops : FloatOps) (config : GeneratorConfig)
    (s0 : RngState)
    (hval : config.dimensions.validate = Except.ok ())
    (hcnt : config.channel_patterns.length = config.dimensions.channel) :
    generate ops config s0 = Except.ok (generateOut ops config s0) := by
  unfold generate generateOut
  rw [hval, if_neg (by simp [hcnt])]
  unfold Array6D.new
  rw [if_neg (by simp), if_neg (by simp [List.length_map, hcnt])]
  rfl

lemma generate_cell (ops : FloatOps) (config : GeneratorConfig)
    (s0 : RngState) (a : Array6D ℚ)
    (hgen : generate ops config s0 = Except.ok a)
    (c : ℕ) (nm : String) (pat : PatternType)
    (hpat : config.channel_patterns[c]? = some (nm, pat))
    (k : ℕ × ℕ × ℕ × ℕ × ℕ → ℚ)
    (hk : ∀ coord s, pixelValueAt ops config.dimensions pat
      config.base_intensity config.noise_level coord s = k coord)
    (t p z y x : ℕ) (ht : t < config.dimensions.time)
    (hp : p < config.dimensions.position) (hz : z < config.dimensions.z)
    (hy : y < config.dimensions.height) (hx : x < config.dimensions.width) :
    a.data.values.getD (layoutIndex config.dimensions t p z c y x) 0 =
      k (t, p, z, y, x) := by
  obtain ⟨hval, hcnt, ha⟩ := generate_ok_elim ops config s0 a hgen
  have hclt : c < config.channel_patterns.length := by
    by_contra hge
    rw [List.getElem?_eq_none (by omega)] at hpat
    cases hpat
  have hc : c < config.dimensions.channel := hcnt ▸ hclt
  have hcoord : (t, p, z, y, x) ∈ allCoords config.dimensions := by
    rw [mem_allCoords]
    exact ⟨ht, hp, hz, hy, hx⟩
  have hCL1 : ∀ e ∈ config.channel_patterns.enum,
      e.1 < config.dimensions.channel := by
    rintro ⟨i, v⟩ he
    rw [List.mk_mem_enum_iff_getElem?] at he
    have : i < config.channel_patterns.length := by
      by_contra hge
      rw [List.getElem?_eq_none (by omega)] at he
      cases he
    omega
  have hCL2 : ∀ e ∈ config.channel_patterns.enum, e.1 = c → e.2.2 = pat := by
    rintro ⟨i, v⟩ he rfl
    rw [List.mk_mem_enum_iff_getElem?] at he
    rw [hpat] at he
    cases he
    rfl
  have hmem : (c, (nm, pat)) ∈ config.channel_patterns.enum := by
    rw [List.mk_mem_enum_iff_getElem?]
    exact hpat
  have hi : coordIndex config.dimensions c (t, p, z, y, x) <
      (List.replicate config.dimensions.shape.prod (0 : ℚ)).length := by
    rw [List.length_replicate, shape_prod]
    exact layoutIndex_lt config.dimensions ht hp hz hc hy hx
  have := channels_fold_cell ops config.dimensions config.base_intensity
    config.noise_level c pat k hk hc (t, p, z, y, x) hcoord
    config.channel_patterns.enum hCL1 hCL2 ⟨(c, (nm, pat)), hmem, rfl⟩
    (List.replicate config.dimensions.shape.prod 0) s0 hi
  rw [ha]
  exact this

end ArrayGenerator

/-! ## Lemmas about `Dimensions::validate` -/

lemma validate_pos {d : Dimensions} (h : d.validate = Except.ok ()) :
    0 < d.time ∧ 0 < d.position ∧ 0 < d.z ∧ 0 < d.channel ∧
    0 < d.height ∧ 0 < d.width := by
  unfold Dimensions.validate at h
  by_cases h0 : d.time = 0 ∨ d.position = 0 ∨ d.z = 0 ∨ d.channel = 0 ∨
      d.height = 0 ∨ d.width = 0
  · rw [if_pos h0] at h
    cases h
  · push_neg at h0
    omega

/-! ## Lemmas about `writeFrame` -/

lemma writeFrame_length (vals : List ℚ) (d : Dimensions) (t p z c : ℕ)
    (f : Frame ℚ) :
    (Array6D.writeFrame vals d t p z c f).length = vals.length := by
  unfold Array6D.writeFrame
  rw [List.length_map, List.enum_length]

lemma writeFrame_getD (vals : List ℚ) (d : Dimensions) (t p z c : ℕ)
    (f : Frame ℚ) (hfh : f.height = d.height) (hfw : f.width = d.width)
    (hfv : f.values.length = f.height * f.width)
    {t' p' z' c' y x : ℕ} (ht' : t' < d.time) (hp' : p' < d.position)
    (hz' : z' < d.z) (hc' : c' < d.channel) (hy : y < d.height)
    (hx : x < d.width)
    (hlen : vals.length = d.total_elements) :
    (Array6D.writeFrame vals d t p z c f).getD
      (layoutIndex d t' p' z' c' y x) 0 =
      if t' = t ∧ p' = p ∧ z' = z ∧ c' = c then
        f.values.getD (y * f.width + x) 0
      else vals.getD (layoutIndex d t' p' z' c' y x) 0 := by
  have hi : layoutIndex d t' p' z' c' y x < vals.length := by
    rw [hlen]
    exact layoutIndex_lt d ht' hp' hz' hc' hy hx
  have hi2 : layoutIndex d t' p' z' c' y x <
      (Array6D.writeFrame vals d t p z c f).length := by
    rw [writeFrame_length]
    exact hi
  rw [List.getD_eq_getElem _ _ hi2]
  unfold Array6D.writeFrame
  rw [List.getElem_map, List.getElem_enum]
  obtain ⟨d1, d2, d3, d4, d5, d6⟩ :=
    @layoutIndex_decomp d t' p' z' c' y x hp' hz' hc' hy hx
  simp only [d1, d2, d3, d4, d5, d6]
  by_cases hsel : t' = t ∧ p' = p ∧ z' = z ∧ c' = c
  · rw [if_pos hsel, if_pos hsel]
    have hyx : y * f.width + x < f.values.length := by
      rw [hfv, hfh, hfw]
      exact mixedRadix_lt hy hx
    rw [List.getD_eq_getElem _ _ hyx, List.getD_eq_getElem _ _ hyx]
  · rw [if_neg hsel, if_neg hsel, List.getD_eq_getElem _ _ hi]

/-! ## Lemmas about the byte codec -/

lemma samplesOfBytes_cons4 (b0 b1 b2 b3 : ℕ) (rest : List ℕ) :
    samplesOfBytes (b0 :: b1 :: b2 :: b3 :: rest) =
      (b0 + 256 * b1 + 65536 * b2 + 16777216 * b3) :: samplesOfBytes rest :=
  rfl

lemma samples_roundtrip :
    ∀ (vs : List ℕ), (∀ v ∈ vs, v < 2 ^ 32) →
      samplesOfBytes (bytesOfSamples vs) = vs := by
  intro vs
  induction vs with
  | nil => intro _; rfl
  | cons v vs ih =>
    intro h
    have hv : v < 2 ^ 32 := h v (List.mem_cons_self v vs)
    unfold bytesOfSamples
    rw [List.flatMap_cons]
    show samplesOfBytes (f32ToLEBytes v ++ bytesOfSamples vs) = v :: vs
    unfold f32ToLEBytes
    rw [List.cons_append, List.cons_append, List.cons_append,
      List.singleton_append, samplesOfBytes_cons4,
      ih (fun w hw => h w (List.mem_cons_of_mem _ hw))]
    congr 1
    omega

lemma bytesOfSamples_length (vs : List ℕ) :
    (bytesOfSamples vs).length = vs.length * 4 := by
  induction vs with
  | nil => rfl
  | cons v vs ih =>
    unfold bytesOfSamples at ih ⊢
    rw [List.flatMap_cons, List.length_append, ih]
    unfold f32ToLEBytes
    simp only [List.length_cons, List.length_nil, List.length_cons]
    omega

/-! ## Lemmas about sorted lists -/

lemma sorted_le_getLast :
    ∀ (l : List ℚ), l.Sorted (· ≤ ·) → ∀ (hne : l ≠ []),
      ∀ v ∈ l, v ≤ l.getLast hne := by
  intro l
  induction l with
  | nil => intro _ hne; cases hne rfl
  | cons a rest ih =>
    intro hs hne v hv
    cases rest with
    | nil =>
      rcases List.mem_cons.mp hv with h | h
      · subst h; exact le_refl _
      · cases h
    | cons b rest2 =>
      rw [List.getLast_cons (List.cons_ne_nil b rest2)]
      rcases List.mem_cons.mp hv with h | h
      · subst h
        exact le_trans
          (List.rel_of_sorted_cons hs _ (List.getLast_mem _))
          (le_refl _)
      · exact ih (List.Sorted.of_cons hs) (List.cons_ne_nil b rest2) v h

/-! ## Claim C4 -/

/-- Claim C4, amended: `validate` succeeds exactly when every extent is
positive and the byte count it computes — the release-profile `usize`
product `total_elements() * 4`, i.e. the true product reduced modulo
`2 ^ 64` — floored to whole MiB is at most 1024, equivalently when that
wrapped byte count is below 1025 MiB.  A zero extent yields the dimension
error, and a positive-extent wrapped byte count of at least 1025 MiB
yields the capacity error naming the floored MiB figure.  The claim's
"any dimensions whose total bytes exceed 1024 MiB are rejected" fails in
two ways: the flooring admits totals strictly between 1024 MiB and
1025 MiB, and the wrapping product can collapse an astronomically large
true total to a small `usize` value that passes the check.  The function
is pure, so it has no side effects. -/
theorem C4_validate_characterization (d : Dimensions) :
    (d.validate = Except.ok () ↔
      (0 < d.time ∧ 0 < d.position ∧ 0 < d.z ∧ 0 < d.channel ∧
        0 < d.height ∧ 0 < d.width ∧
        d.total_bytes < 1025 * (1024 * 1024))) ∧
    ((d.time = 0 ∨ d.position = 0 ∨ d.z = 0 ∨ d.channel = 0 ∨
        d.height = 0 ∨ d.width = 0) →
      d.validate = Except.error "All dimensions must be greater than 0") ∧
    ((0 < d.time ∧ 0 < d.position ∧ 0 < d.z ∧ 0 < d.channel ∧
        0 < d.height ∧ 0 < d.width ∧
        1025 * (1024 * 1024) ≤ d.total_bytes) →
      d.validate = Except.error ("Array would use " ++
        toString (d.total_bytes / (1024 * 1024)) ++
        "MB memory, maximum is 1024MB")) := by
  have hdiv : 1024 < d.total_bytes / (1024 * 1024) ↔
      1025 * (1024 * 1024) ≤ d.total_bytes := by
    constructor
    · intro h
      exact (Nat.le_div_iff_mul_le (by norm_num)).mp (by omega)
    · intro h
      have := (Nat.le_div_iff_mul_le
        (by norm_num : 0 < 1024 * 1024)).mpr h
      omega
  unfold Dimensions.validate
  by_cases h0 : d.time = 0 ∨ d.position = 0 ∨ d.z = 0 ∨ d.channel = 0 ∨
      d.height = 0 ∨ d.width = 0
  · rw [if_pos h0]
    refine ⟨?_, fun _ => rfl, fun h => ?_⟩
    · constructor
      · intro h
        cases h
      · intro h
        exfalso
        omega
    · exfalso
      omega
  · rw [if_neg h0]
    push_neg at h0
    by_cases hcap : 1024 < d.total_bytes / (1024 * 1024)
    · rw [if_pos hcap]
      have hge := hdiv.mp hcap
      refine ⟨?_, fun h => ?_, fun _ => rfl⟩
      · constructor
        · intro h
          cases h
        · intro h
          exfalso
          omega
      · exfalso
        omega
    · rw [if_neg hcap]
      have hlt : d.total_bytes < 1025 * (1024 * 1024) := by
        by_contra hge
        exact hcap (hdiv.mpr (by omega))
      refine ⟨?_, fun h => ?_, fun h => ?_⟩
      · constructor
        · intro h
          exact ⟨by omega, by omega, by omega, by omega, by omega,
            by omega, hlt⟩
        · intro h
          rfl
      · exfalso
        omega
      · exfalso
        omega

/-- Claim C4, counterexample to the claim as stated, at two realizable
inputs whose true byte totals exceed the 1024 MiB ceiling yet which
`validate` accepts: (1,1,1,1,1,2^28+1) occupies 2^30 + 4 bytes, floored
to exactly 1024 MiB before the `> 1024` comparison; and
(65536,65536,65536,65536,1,1) has a true element product of 2^64, whose
release-profile `usize` byte count wraps to 0, so the code computes
`memory_mb = 0` and returns Ok (a debug build would panic at the
multiplication — in no profile is the capacity error returned). -/
theorem C4_counterexample :
    ((Dimensions.new 1 1 1 1 1 (2 ^ 28 + 1)).total_elements * 4 >
        1024 * (1024 * 1024) ∧
      (Dimensions.new 1 1 1 1 1 (2 ^ 28 + 1)).validate = Except.ok ()) ∧
    ((Dimensions.new 65536 65536 65536 65536 1 1).total_elements * 4 >
        1024 * (1024 * 1024) ∧
      (Dimensions.new 65536 65536 65536 65536 1 1).total_bytes = 0 ∧
      (Dimensions.new 65536 65536 65536 65536 1 1).validate =
        Except.ok ()) := by
  refine ⟨⟨by decide, rfl⟩, by decide, by decide, rfl⟩

/-- Witness for C4: the all-ones dimensions validate successfully. -/
theorem C4_witness : (Dimensions.new 1 1 1 1 1 1).validate = Except.ok () :=
  ((C4_validate_characterization (Dimensions.new 1 1 1 1 1 1)).1).mpr
    (by
      refine ⟨by norm_num [Dimensions.new], by norm_num [Dimensions.new],
        by norm_num [Dimensions.new], by norm_num [Dimensions.new],
        by norm_num [Dimensions.new], by norm_num [Dimensions.new], ?_⟩
      norm_num [Dimensions.total_bytes, Dimensions.total_elements,
        Dimensions.new])

/-! ## Claim C1 -/

/-- Claim C1 (round-trip persistence): for every container whose fields
are mutually consistent (as `Array6D::new` guarantees: data shape equals
`dimensions.shape()`, buffer length equals `total_elements`, channel-name
count equals the channel extent) and whose samples are 32-bit patterns,
`load_array` after `save_array` returns a container with bit-identical
Dimensions, pixel size, time interval, channel names, data type, and
sample payload — stated as recovering the container exactly. -/
theorem C1_roundtrip (a : Array6D ℕ)
    (hshape : a.data.shape = a.dimensions.shape)
    (hlen : a.data.values.length = a.dimensions.total_elements)
    (hnames : a.channel_names.length = a.dimensions.channel)
    (hbits : ∀ v ∈ a.data.values, v < 2 ^ 32) :
    load_array (save_array a) = Except.ok a := by
  obtain ⟨⟨dshape, dvals⟩, dims, px, ts, names, dt⟩ := a
  dsimp only at hshape hlen hnames hbits
  subst hshape
  unfold load_array save_array load_split save_split ArrayMetadata.from_array
  dsimp only
  rw [if_neg (by rw [bytesOfSamples_length, hlen]; omega)]
  rw [samples_roundtrip dvals hbits]
  rw [if_neg (by rw [hlen, shape_prod]; exact fun h => h rfl)]
  unfold Array6D.new
  rw [if_neg (by simp), if_neg (by simp [hnames])]

/-- Witness for C1: a concrete 1-sample container (bit pattern of the
`f32` value -1.0) round-trips exactly. -/
theorem C1_witness : load_array (save_array aBits) = Except.ok aBits :=
  C1_roundtrip aBits rfl rfl rfl (by decide)

/-! ## Claim C2 -/

/-- Claim C2, amended: `set_frame` does check the frame shape first and
returns the shape-mismatch error; on matching shape with all four indices
in range it overwrites exactly the selected `(height, width)` region and
leaves every other cell unchanged; but it performs no per-axis bounds
checks of its own — with matching shape and any index out of range, the
underlying `slice_mut` panics (modelled as `none`) instead of returning
an `IndexOutOfBoundsError`. -/
theorem C2_set_frame_behavior (a : Array6D ℚ) (t p z c : ℕ) (f : Frame ℚ)
    (hlen : a.data.values.length = a.dimensions.total_elements)
    (hfv : f.values.length = f.height * f.width) :
    ((f.height ≠ a.dimensions.height ∨ f.width ≠ a.dimensions.width) →
      a.set_frame t p z c f = some (Except.error ("Frame shape [" ++
        toString f.height ++ ", " ++ toString f.width ++
        "] does not match expected [" ++ toString a.dimensions.height ++
        "x" ++ toString a.dimensions.width ++ "]"))) ∧
    (f.height = a.dimensions.height → f.width = a.dimensions.width →
      ¬(t < a.dimensions.time ∧ p < a.dimensions.position ∧
        z < a.dimensions.z ∧ c < a.dimensions.channel) →
      a.set_frame t p z c f = none) ∧
    (f.height = a.dimensions.height → f.width = a.dimensions.width →
      t < a.dimensions.time → p < a.dimensions.position →
      z < a.dimensions.z → c < a.dimensions.channel →
      ∃ r, a.set_frame t p z c f = some (Except.ok r) ∧
        r.dimensions = a.dimensions ∧
        r.data.values.length = a.data.values.length ∧
        (∀ t' p' z' c' y x, t' < a.dimensions.time →
          p' < a.dimensions.position → z' < a.dimensions.z →
          c' < a.dimensions.channel → y < a.dimensions.height →
          x < a.dimensions.width →
          r.data.values.getD (layoutIndex a.dimensions t' p' z' c' y x) 0 =
            if t' = t ∧ p' = p ∧ z' = z ∧ c' = c then
              f.values.getD (y * f.width + x) 0
            else
              a.data.values.getD
                (layoutIndex a.dimensions t' p' z' c' y x) 0)) := by
  refine ⟨?_, ?_, ?_⟩
  · intro hmis
    unfold Array6D.set_frame
    rw [if_pos hmis]
  · intro hh hw hout
    unfold Array6D.set_frame
    rw [if_neg (by omega), if_neg hout]
  · intro hh hw ht hp hz hc
    unfold Array6D.set_frame
    rw [if_neg (by omega), if_pos ⟨ht, hp, hz, hc⟩]
    refine ⟨_, rfl, rfl, writeFrame_length a.data.values a.dimensions
      t p z c f, ?_⟩
    intro t' p' z' c' y x ht' hp' hz' hc' hy hx
    exact writeFrame_getD a.data.values a.dimensions t p z c f hh hw hfv
      ht' hp' hz' hc' hy hx hlen

/-- Claim C2, counterexample to the claim as stated: on a container of
all-1 extents, `set_frame` with a correctly shaped frame but time index 5
hits the unchecked `slice_mut`, which panics (`none`); it does not return
the `IndexOutOfBoundsError` that `get_frame` returns for the same
indices. -/
theorem C2_counterexample :
    c2A.set_frame 5 0 0 0 ⟨1, 1, [2]⟩ = none ∧
    (∀ e, c2A.set_frame 5 0 0 0 ⟨1, 1, [2]⟩ ≠ some (Except.error e)) ∧
    c2A.get_frame 5 0 0 0 =
      Except.error "Time index 5 out of bounds (max: 0)" := by
  refine ⟨rfl, fun e h => Option.noConfusion h, ?_⟩
  rfl

/-- Witness for C2: the shape-mismatch branch on a concrete container. -/
theorem C2_witness :
    c2A.set_frame 0 0 0 0 ⟨2, 2, [1, 2, 3, 4]⟩ =
      some (Except.error
        "Frame shape [2, 2] does not match expected [1x1]") :=
  (C2_set_frame_behavior c2A 0 0 0 0 ⟨2, 2, [1, 2, 3, 4]⟩ rfl rfl).1
    (Or.inl (by decide))

/-! ## Claim C3 -/

/-- Claim C3: `from_frame` on a non-empty frame computes mean = sum / N,
the parity-split median over the sorted copy, true minimum and maximum
(first/last of the sorted copy, shown to be genuine bounds attained in the
frame), population variance (divisor N, whose square root the source
stores as `std_dev`), and the inclusive `>= threshold` saturation count;
and on the 3x3 frame 1..9 with threshold 8 it yields saturated_pixels = 2,
mean = 5, median = 5, min = 1, max = 9. -/
theorem C3_frame_stats :
    (∀ (values : List ℚ) (thr : ℚ), values ≠ [] →
      (FrameStats.from_frame values thr).mean =
        values.sum / (values.length : ℚ) ∧
      (values.length % 2 = 1 → (FrameStats.from_frame values thr).median =
        (values.insertionSort (· ≤ ·)).getD (values.length / 2) 0) ∧
      (values.length % 2 = 0 → (FrameStats.from_frame values thr).median =
        ((values.insertionSort (· ≤ ·)).getD (values.length / 2 - 1) 0 +
         (values.insertionSort (· ≤ ·)).getD (values.length / 2) 0) / 2) ∧
      (FrameStats.from_frame values thr).min ∈ values ∧
      (∀ v ∈ values, (FrameStats.from_frame values thr).min ≤ v) ∧
      (FrameStats.from_frame values thr).max ∈ values ∧
      (∀ v ∈ values, v ≤ (FrameStats.from_frame values thr).max) ∧
      (FrameStats.from_frame values thr).variance =
        (values.map fun x =>
          (x - values.sum / (values.length : ℚ)) ^ 2).sum /
          (values.length : ℚ) ∧
      (FrameStats.from_frame values thr).saturated_pixels =
        (values.filter fun x => thr ≤ x).length ∧
      (FrameStats.from_frame values thr).total_pixels = values.length) ∧
    ((FrameStats.from_frame [1, 2, 3, 4, 5, 6, 7, 8, 9] 8).saturated_pixels
        = 2 ∧
      (FrameStats.from_frame [1, 2, 3, 4, 5, 6, 7, 8, 9] 8).mean = 5 ∧
      (FrameStats.from_frame [1, 2, 3, 4, 5, 6, 7, 8, 9] 8).median = 5 ∧
      (FrameStats.from_frame [1, 2, 3, 4, 5, 6, 7, 8, 9] 8).min = 1 ∧
      (FrameStats.from_frame [1, 2, 3, 4, 5, 6, 7, 8, 9] 8).max = 9) := by
  have hmain : ∀ (values : List ℚ) (thr : ℚ), values ≠ [] →
      (FrameStats.from_frame values thr).mean =
        values.sum / (values.length : ℚ) ∧
      (values.length % 2 = 1 → (FrameStats.from_frame values thr).median =
        (values.insertionSort (· ≤ ·)).getD (values.length / 2) 0) ∧
      (values.length % 2 = 0 → (FrameStats.from_frame values thr).median =
        ((values.insertionSort (· ≤ ·)).getD (values.length / 2 - 1) 0 +
         (values.insertionSort (· ≤ ·)).getD (values.length / 2) 0) / 2) ∧
      (FrameStats.from_frame values thr).min ∈ values ∧
      (∀ v ∈ values, (FrameStats.from_frame values thr).min ≤ v) ∧
      (FrameStats.from_frame values thr).max ∈ values ∧
      (∀ v ∈ values, v ≤ (FrameStats.from_frame values thr).max) ∧
      (FrameStats.from_frame values thr).variance =
        (values.map fun x =>
          (x - values.sum / (values.length : ℚ)) ^ 2).sum /
          (values.length : ℚ) ∧
      (FrameStats.from_frame values thr).saturated_pixels =
        (values.filter fun x => thr ≤ x).length ∧
      (FrameStats.from_frame values thr).total_pixels = values.length := by
    intro values thr hne
    have hlen0 : values.length ≠ 0 :=
      fun h => hne (List.length_eq_zero.mp h)
    have hperm := List.perm_insertionSort (· ≤ ·) values
    have hsorted := List.sorted_insertionSort (· ≤ ·) values
    have hslen : (values.insertionSort (· ≤ ·)).length = values.length :=
      hperm.length_eq
    have hsne : values.insertionSort (· ≤ ·) ≠ [] := by
      intro h
      apply hlen0
      rw [← hslen, h]
      rfl
    unfold FrameStats.from_frame
    rw [if_neg hlen0]
    refine ⟨rfl, ?_, ?_, ?_, ?_, ?_, ?_, rfl, rfl, rfl⟩
    · intro hodd
      show (if values.length % 2 = 0 then _ else _) = _
      rw [if_neg (by omega)]
    · intro heven
      show (if values.length % 2 = 0 then _ else _) = _
      rw [if_pos heven]
    · show (values.insertionSort (· ≤ ·)).getD 0 0 ∈ values
      cases hs : values.insertionSort (· ≤ ·) with
      | nil => exact absurd hs hsne
      | cons a rest =>
        show a ∈ values
        rw [← hperm.mem_iff, hs]
        exact List.mem_cons_self a rest
    · intro v hv
      show (values.insertionSort (· ≤ ·)).getD 0 0 ≤ v
      have hv' : v ∈ values.insertionSort (· ≤ ·) := hperm.mem_iff.mpr hv
      cases hs : values.insertionSort (· ≤ ·) with
      | nil => exact absurd hs hsne
      | cons a rest =>
        show a ≤ v
        rw [hs] at hv'
        rcases List.mem_cons.mp hv' with h | h
        · exact h ▸ le_refl a
        · exact List.rel_of_sorted_cons (hs ▸ hsorted) v h
    · show (values.insertionSort (· ≤ ·)).getD (values.length - 1) 0
        ∈ values
      have hidx : values.length - 1 <
          (values.insertionSort (· ≤ ·)).length := by omega
      rw [List.getD_eq_getElem _ _ hidx, ← hperm.mem_iff]
      have : (values.insertionSort (· ≤ ·))[values.length - 1] =
          (values.insertionSort (· ≤ ·)).getLast hsne := by
        rw [List.getLast_eq_getElem]
        congr 1
        omega
      rw [this]
      exact List.getLast_mem hsne
    · intro v hv
      show v ≤ (values.insertionSort (· ≤ ·)).getD (values.length - 1) 0
      have hidx : values.length - 1 <
          (values.insertionSort (· ≤ ·)).length := by omega
      rw [List.getD_eq_getElem _ _ hidx]
      have heq : (values.insertionSort (· ≤ ·))[values.length - 1] =
          (values.insertionSort (· ≤ ·)).getLast hsne := by
        rw [List.getLast_eq_getElem]
        congr 1
        omega
      rw [heq]
      exact sorted_le_getLast _ hsorted hsne v (hperm.mem_iff.mpr hv)
  refine ⟨hmain, ?_, ?_, ?_, ?_, ?_⟩
  · decide
  · have h := (hmain [1, 2, 3, 4, 5, 6, 7, 8, 9] 8 (by decide)).1
    rw [h]
    norm_num
  · decide
  · decide
  · decide

/-- Witness for C3: the statistics contract applied to the concrete
two-sample frame [1, 2]. -/
theorem C3_witness :
    (FrameStats.from_frame [(1 : ℚ), 2] 0).mean = 3 / 2 := by
  have h := (C3_frame_stats.1 [(1 : ℚ), 2] 0 (by decide)).1
  rw [h]
  norm_num

/-! ## Claim C5 -/

/-- Claim C5: on a container with all-positive (usize-ranged) dimensions,
`get_frame` with any single index equal to its axis's extent fails with
the out-of-bounds error naming that axis and its valid maximum
`extent - 1`; any fully in-range index tuple (in particular index 0 on an
axis of extent 1) succeeds with the `(height, width)` slice of the buffer
under the row-major T,P,Z,C,Y,X layout. -/
theorem C5_get_frame (a : Array6D ℚ)
    (hpos : 0 < a.dimensions.time ∧ 0 < a.dimensions.position ∧
      0 < a.dimensions.z ∧ 0 < a.dimensions.channel)
    (h64 : a.dimensions.time < 2 ^ 64 ∧ a.dimensions.position < 2 ^ 64 ∧
      a.dimensions.z < 2 ^ 64 ∧ a.dimensions.channel < 2 ^ 64) :
    (∀ p z c, a.get_frame a.dimensions.time p z c =
      Except.error ("Time index " ++ toString a.dimensions.time ++
        " out of bounds (max: " ++ toString (a.dimensions.time - 1) ++
        ")")) ∧
    (∀ t z c, t < a.dimensions.time →
      a.get_frame t a.dimensions.position z c =
      Except.error ("Position index " ++ toString a.dimensions.position ++
        " out of bounds (max: " ++
        toString (a.dimensions.position - 1) ++ ")")) ∧
    (∀ t p c, t < a.dimensions.time → p < a.dimensions.position →
      a.get_frame t p a.dimensions.z c =
      Except.error ("Z index " ++ toString a.dimensions.z ++
        " out of bounds (max: " ++ toString (a.dimensions.z - 1) ++
        ")")) ∧
    (∀ t p z, t < a.dimensions.time → p < a.dimensions.position →
      z < a.dimensions.z →
      a.get_frame t p z a.dimensions.channel =
      Except.error ("Channel index " ++ toString a.dimensions.channel ++
        " out of bounds (max: " ++
        toString (a.dimensions.channel - 1) ++ ")")) ∧
    (∀ t p z c, t < a.dimensions.time → p < a.dimensions.position →
      z < a.dimensions.z → c < a.dimensions.channel →
      ∃ rows, a.get_frame t p z c = Except.ok rows ∧
        rows.length = a.dimensions.height ∧
        (∀ y, y < a.dimensions.height →
          (rows.getD y []).length = a.dimensions.width) ∧
        (∀ y x, y < a.dimensions.height → x < a.dimensions.width →
          (rows.getD y []).getD x 0 =
            a.data.values.getD (layoutIndex a.dimensions t p z c y x) 0)) := by
  obtain ⟨hpt, hpp, hpz, hpc⟩ := hpos
  obtain ⟨h64t, h64p, h64z, h64c⟩ := h64
  refine ⟨?_, ?_, ?_, ?_, ?_⟩
  · intro p z c
    unfold Array6D.get_frame
    rw [if_pos (le_refl _), usizeSub1_of_pos hpt h64t]
  · intro t z c ht
    unfold Array6D.get_frame
    rw [if_neg (by omega), if_pos (le_refl _),
      usizeSub1_of_pos hpp h64p]
  · intro t p c ht hp
    unfold Array6D.get_frame
    rw [if_neg (by omega), if_neg (by omega), if_pos (le_refl _),
      usizeSub1_of_pos hpz h64z]
  · intro t p z ht hp hz
    unfold Array6D.get_frame
    rw [if_neg (by omega), if_neg (by omega), if_neg (by omega),
      if_pos (le_refl _), usizeSub1_of_pos hpc h64c]
  · intro t p z c ht hp hz hc
    unfold Array6D.get_frame
    rw [if_neg (by omega), if_neg (by omega), if_neg (by omega),
      if_neg (by omega)]
    refine ⟨_, rfl, by rw [List.length_map, List.length_range], ?_, ?_⟩
    · intro y hy
      have hy' : y < (List.range a.dimensions.height).length := by
        rw [List.length_range]
        exact hy
      rw [List.getD_eq_getElem _ _ (by rw [List.length_map]; exact hy'),
        List.getElem_map, List.length_map, List.length_range]
    · intro y x hy hx
      have hy' : y < ((List.range a.dimensions.height).map fun y =>
          (List.range a.dimensions.width).map fun x =>
            a.data.values.getD (layoutIndex a.dimensions t p z c y x)
              default).length := by
        rw [List.length_map, List.length_range]
        exact hy
      rw [List.getD_eq_getElem _ _ hy', List.getElem_map,
        List.getElem_range]
      have hx' : x < ((List.range a.dimensions.width).map fun x =>
          a.data.values.getD (layoutIndex a.dimensions t p z c y x)
            default).length := by
        rw [List.length_map, List.length_range]
        exact hx
      rw [List.getD_eq_getElem _ _ hx', List.getElem_map,
        List.getElem_range]
      rfl

/-- Witness for C5: on the concrete all-1-extent container, the
one-past-max time index fails with the message naming the axis and the
valid range, and index 0 on every axis of extent 1 succeeds with the
single stored sample. -/
theorem C5_witness :
    c2A.get_frame 1 0 0 0 =
      Except.error "Time index 1 out of bounds (max: 0)" ∧
    (∃ rows, c2A.get_frame 0 0 0 0 = Except.ok rows ∧
      rows.length = 1 ∧ (∀ y, y < 1 → (rows.getD y []).length = 1) ∧
      (∀ y x, y < 1 → x < 1 → (rows.getD y []).getD x 0 =
        c2A.data.values.getD (layoutIndex c2A.dimensions 0 0 0 0 y x) 0)) := by
  have h := C5_get_frame c2A (by refine ⟨?_, ?_, ?_, ?_⟩ <;> decide)
    (by refine ⟨?_, ?_, ?_, ?_⟩ <;> decide)
  exact ⟨h.1 0 0 0, h.2.2.2.2 0 0 0 0 (by decide) (by decide) (by decide)
    (by decide)⟩

/-! ## Claim C10 -/

/-- Claim C10: `Array6D::new` performs no `Dimensions::validate` — it
accepts zero-extent axes whenever the data's own shape matches the
dimensions field-for-field (and the channel-name count matches); and
`get_frame` is total on every such container: whenever one of the four
indexed extents is zero, every index tuple returns an error rather than
panicking, the failing axis's reported maximum being the wrapped
`0 - 1 = 2^64 - 1` of release-profile unsigned arithmetic. -/
theorem C10_new_no_validate :
    (∀ (data : NdArray6 ℚ) (dims : Dimensions) (ps ts : ℚ)
        (names : List String) (dt : String),
      data.shape = dims.shape → names.length = dims.channel →
      Array6D.new data dims ps ts names dt =
        Except.ok ⟨data, dims, ps, ts, names, dt⟩) ∧
    (∀ a : Array6D ℚ,
      (a.dimensions.time = 0 ∨ a.dimensions.position = 0 ∨
        a.dimensions.z = 0 ∨ a.dimensions.channel = 0) →
      ∀ t p z c, ∃ e, a.get_frame t p z c = Except.error e) ∧
    (∀ a : Array6D ℚ, a.dimensions.time = 0 → ∀ t p z c,
      a.get_frame t p z c = Except.error ("Time index " ++ toString t ++
        " out of bounds (max: " ++ toString (2 ^ 64 - 1 : ℕ) ++ ")")) := by
  refine ⟨?_, ?_, ?_⟩
  · intro data dims ps ts names dt hsh hn
    unfold Array6D.new
    rw [if_neg (by simp [hsh]), if_neg (by simp [hn])]
  · intro a hzero t p z c
    unfold Array6D.get_frame
    by_cases h1 : t ≥ a.dimensions.time
    · rw [if_pos h1]
      exact ⟨_, rfl⟩
    · rw [if_neg h1]
      by_cases h2 : p ≥ a.dimensions.position
      · rw [if_pos h2]
        exact ⟨_, rfl⟩
      · rw [if_neg h2]
        by_cases h3 : z ≥ a.dimensions.z
        · rw [if_pos h3]
          exact ⟨_, rfl⟩
        · rw [if_neg h3]
          by_cases h4 : c ≥ a.dimensions.channel
          · rw [if_pos h4]
            exact ⟨_, rfl⟩
          · exfalso
            omega
  · intro a hzero t p z c
    unfold Array6D.get_frame
    rw [if_pos (by omega), hzero, usizeSub1_zero]

/-- Witness for C10: a container whose time extent is 0 (with matching
empty buffer) is accepted by `new`, and `get_frame` on it returns the
wrapped-maximum error for every index. -/
theorem C10_witness :
    Array6D.new (⟨[0, 1, 1, 1, 1, 1], []⟩ : NdArray6 ℚ)
        (Dimensions.new 0 1 1 1 1 1) 1 1 ["Ch1"] "uint16" =
      Except.ok ⟨⟨[0, 1, 1, 1, 1, 1], []⟩, Dimensions.new 0 1 1 1 1 1, 1, 1,
        ["Ch1"], "uint16"⟩ ∧
    Array6D.get_frame
        (⟨⟨[0, 1, 1, 1, 1, 1], []⟩, Dimensions.new 0 1 1 1 1 1, 1, 1,
          ["Ch1"], "uint16"⟩ : Array6D ℚ) 0 0 0 0 =
      Except.error ("Time index " ++ toString (0 : ℕ) ++
        " out of bounds (max: " ++ toString (2 ^ 64 - 1 : ℕ) ++ ")") :=
  ⟨C10_new_no_validate.1 ⟨[0, 1, 1, 1, 1, 1], []⟩
      (Dimensions.new 0 1 1 1 1 1) 1 1 ["Ch1"] "uint16" rfl rfl,
    C10_new_no_validate.2.2 _ rfl 0 0 0 0⟩

/-! ## Claim C6 -/

/-- Claim C6, amended: the buffer-length invariant
`data.values.length = dimensions.total_elements()` is established by
`new` (whose shape check rejects any violating input with an error) and
by `zeros`, and is preserved by `set_frame`; the read accessors cannot
disturb it.  `data_mut`, however, returns an unchecked mutable reference
through which the whole `Array6` (shape included) can be replaced, so a
caller can break the invariant without any operation being rejected —
the claim's "any operation that would violate this equality is rejected
with an error" does not extend to mutation through `data_mut`. -/
theorem C6_buffer_invariant :
    (∀ (data : NdArray6 ℚ) (dims : Dimensions) (ps ts : ℚ)
        (names : List String) (dt : String) (r : Array6D ℚ),
      data.wf → Array6D.new data dims ps ts names dt = Except.ok r →
      r.bufferInv) ∧
    (∀ (dims : Dimensions) (ps ts : ℚ) (names : List String) (dt : String)
        (r : Array6D ℚ),
      Array6D.zeros dims ps ts names dt = Except.ok r → r.bufferInv) ∧
    (∀ (a : Array6D ℚ) (t p z c : ℕ) (f : Frame ℚ) (r : Array6D ℚ),
      a.bufferInv → a.set_frame t p z c f = some (Except.ok r) →
      r.bufferInv) ∧
    (∀ (data : NdArray6 ℚ) (dims : Dimensions) (ps ts : ℚ)
        (names : List String) (dt : String),
      data.wf → data.values.length ≠ dims.total_elements →
      ∃ e, Array6D.new data dims ps ts names dt = Except.error e) := by
  have hnew : ∀ (data : NdArray6 ℚ) (dims : Dimensions) (ps ts : ℚ)
      (names : List String) (dt : String) (r : Array6D ℚ),
      data.wf → Array6D.new data dims ps ts names dt = Except.ok r →
      r.bufferInv := by
    intro data dims ps ts names dt r hwf hok
    unfold Array6D.new at hok
    by_cases hsh : data.shape = dims.shape
    · by_cases hn : names.length = dims.channel
      · rw [if_neg (by simp [hsh]), if_neg (by simp [hn])] at hok
        cases hok
        unfold Array6D.bufferInv
        rw [hwf.2, hsh, shape_prod]
      · rw [if_neg (by simp [hsh]), if_pos (by simp [hn])] at hok
        cases hok
    · rw [if_pos (by simp [hsh])] at hok
      cases hok
  refine ⟨hnew, ?_, ?_, ?_⟩
  · intro dims ps ts names dt r hok
    unfold Array6D.zeros at hok
    cases hval : dims.validate with
    | error e =>
      rw [hval] at hok
      cases hok
    | ok u =>
      cases u
      rw [hval] at hok
      exact hnew _ dims ps ts names dt r
        ⟨by simp [Dimensions.shape], by rw [List.length_replicate]⟩ hok
  · intro a t p z c f r hinv hok
    unfold Array6D.set_frame at hok
    by_cases hsh : f.height ≠ a.dimensions.height ∨
        f.width ≠ a.dimensions.width
    · rw [if_pos hsh] at hok
      cases hok
    · rw [if_neg hsh] at hok
      by_cases hin : t < a.dimensions.time ∧ p < a.dimensions.position ∧
          z < a.dimensions.z ∧ c < a.dimensions.channel
      · rw [if_pos hin] at hok
        cases hok
        unfold Array6D.bufferInv
        rw [writeFrame_length]
        exact hinv
      · rw [if_neg hin] at hok
        cases hok
  · intro data dims ps ts names dt hwf hne
    unfold Array6D.new
    rw [if_pos]
    · exact ⟨_, rfl⟩
    · simp only [ne_eq]
      intro hsh
      apply hne
      rw [hwf.2, hsh, shape_prod]

/-- Claim C6, counterexample to the claim as stated: the concrete
container satisfies the invariant, yet replacing its data through
`data_mut` with a differently shaped `Array6` yields a container that
violates it — no error is returned, the operation is simply applied. -/
theorem C6_counterexample :
    Array6D.bufferInv c6A ∧
    ¬ Array6D.bufferInv (c6A.data_mut_assign c6Bad) := by
  constructor
  · decide
  · decide

/-- Witness for C6: `new` on a well-formed 1-element input establishes the
invariant. -/
theorem C6_witness : Array6D.bufferInv c6A :=
  (C6_buffer_invariant.1 ⟨[1, 1, 1, 1, 1, 1], [0]⟩
    (Dimensions.new 1 1 1 1 1 1) (65 / 100) 1 ["Ch1"] "uint16" c6A
    (by constructor <;> decide) rfl)

/-! ## Claim C7 -/

/-- Claim C7, amended: with a `Uniform(v)` channel pattern and
`noise_level = 0`, every sample of that channel in the generated array
equals `max v 0` — the pattern value after the generator's final
non-negativity clamp — and hence equals `v` exactly whenever `v ≥ 0`.
(The claim's "for every value v" fails for negative `v`, which the clamp
replaces by 0.) -/
theorem C7_uniform_generation (ops : FloatOps) (config : GeneratorConfig)
    (s0 : RngState) (a : Array6D ℚ) (c : ℕ) (nm : String) (v : ℚ)
    (hnl : config.noise_level = 0)
    (hpat : config.channel_patterns[c]? = some (nm, PatternType.uniform v))
    (hgen : ArrayGenerator.generate ops config s0 = Except.ok a) :
    ∀ t p z y x, t < config.dimensions.time →
      p < config.dimensions.position → z < config.dimensions.z →
      y < config.dimensions.height → x < config.dimensions.width →
      a.data.values.getD (layoutIndex config.dimensions t p z c y x) 0 =
        max v 0 ∧
      (0 ≤ v →
        a.data.values.getD (layoutIndex config.dimensions t p z c y x) 0 =
          v) := by
  intro t p z y x ht hp hz hy hx
  have hcell := ArrayGenerator.generate_cell ops config s0 a hgen c nm
    (PatternType.uniform v) hpat (fun _ => max v 0)
    (fun coord s => by
      rw [hnl]
      exact ArrayGenerator.pixelValueAt_uniform ops config.dimensions v
        config.base_intensity coord s)
    t p z y x ht hp hz hy hx
  exact ⟨hcell, fun hv => by rw [hcell]; exact max_eq_left hv⟩

/-- Claim C7, counterexample to the claim as stated: a `Uniform(-1)`
channel with `noise_level = 0` generates samples equal to 0, not -1,
because of the final `.max(0.0)` clamp. -/
theorem C7_counterexample :
    ArrayGenerator.generate constOps cfgUniformNeg ⟨0, 0⟩ =
      Except.ok (generateOut constOps cfgUniformNeg ⟨0, 0⟩) ∧
    (generateOut constOps cfgUniformNeg ⟨0, 0⟩).data.values.getD
      (layoutIndex cfgUniformNeg.dimensions 0 0 0 0 0 0) 0 = 0 ∧
    (0 : ℚ) ≠ -1 := by
  have hgen := ArrayGenerator.generate_eq_ok constOps cfgUniformNeg ⟨0, 0⟩
    rfl rfl
  refine ⟨hgen, ?_, by norm_num⟩
  have hcell := ArrayGenerator.generate_cell constOps cfgUniformNeg ⟨0, 0⟩
    (generateOut constOps cfgUniformNeg ⟨0, 0⟩) hgen 0 "Ch1"
    (PatternType.uniform (-1)) rfl (fun _ => max (-1) 0)
    (fun coord s =>
      ArrayGenerator.pixelValueAt_uniform constOps cfgUniformNeg.dimensions
        (-1) cfgUniformNeg.base_intensity coord s)
    0 0 0 0 0 (by decide) (by decide) (by decide) (by decide) (by decide)
  rw [hcell]
  exact max_eq_right (by norm_num)

/-- Witness for C7: a `Uniform(42)` channel with noise 0 generates the
sample 42. -/
theorem C7_witness :
    (generateOut constOps cfgUniformPos ⟨0, 0⟩).data.values.getD
      (layoutIndex cfgUniformPos.dimensions 0 0 0 0 0 0) 0 = 42 := by
  have hgen := ArrayGenerator.generate_eq_ok constOps cfgUniformPos ⟨0, 0⟩
    rfl rfl
  exact (C7_uniform_generation constOps cfgUniformPos ⟨0, 0⟩
    (generateOut constOps cfgUniformPos ⟨0, 0⟩) 0 "Ch1" 42 rfl rfl hgen
    0 0 0 0 0 (by decide) (by decide) (by decide) (by decide)
    (by decide)).2 (by norm_num)

/-! ## Claim C8 -/

/-- Claim C8: with the `Gradient` pattern and `noise_level = 0`, the
generated samples at fixed (t,p,z,c) are monotonically non-decreasing
along increasing x at fixed y and along increasing y at fixed x (for any
`base_intensity`: when it is negative the clamp flattens the whole frame
to 0, which is still non-decreasing). -/
theorem C8_gradient_monotone (ops : FloatOps) (config : GeneratorConfig)
    (s0 : RngState) (a : Array6D ℚ) (c : ℕ) (nm : String)
    (hnl : config.noise_level = 0)
    (hpat : config.channel_patterns[c]? = some (nm, PatternType.gradient))
    (hgen : ArrayGenerator.generate ops config s0 = Except.ok a) :
    (∀ t p z y x1 x2, t < config.dimensions.time →
      p < config.dimensions.position → z < config.dimensions.z →
      y < config.dimensions.height → x1 ≤ x2 →
      x2 < config.dimensions.width →
      a.data.values.getD (layoutIndex config.dimensions t p z c y x1) 0 ≤
        a.data.values.getD (layoutIndex config.dimensions t p z c y x2) 0) ∧
    (∀ t p z y1 y2 x, t < config.dimensions.time →
      p < config.dimensions.position → z < config.dimensions.z →
      y1 ≤ y2 → y2 < config.dimensions.height →
      x < config.dimensions.width →
      a.data.values.getD (layoutIndex config.dimensions t p z c y1 x) 0 ≤
        a.data.values.getD (layoutIndex config.dimensions t p z c y2 x) 0) := by
  have hpos := validate_pos
    (ArrayGenerator.generate_ok_elim ops config s0 a hgen).1
  have hW : (0 : ℚ) < (config.dimensions.width : ℚ) := by
    exact_mod_cast hpos.2.2.2.2.2
  have hH : (0 : ℚ) < (config.dimensions.height : ℚ) := by
    exact_mod_cast hpos.2.2.2.2.1
  have hk : ∀ coord s, ArrayGenerator.pixelValueAt ops config.dimensions
      PatternType.gradient config.base_intensity config.noise_level coord
      s = max (config.base_intensity * ((coord.2.2.2.2 : ℚ) /
        (config.dimensions.width : ℚ) + (coord.2.2.2.1 : ℚ) /
        (config.dimensions.height : ℚ)) / 2) 0 := by
    intro coord s
    rw [hnl]
    exact ArrayGenerator.pixelValueAt_gradient ops config.dimensions
      config.base_intensity coord s
  have hmono : ∀ u1 u2 : ℚ, 0 ≤ u1 → u1 ≤ u2 →
      max (config.base_intensity * u1 / 2) 0 ≤
        max (config.base_intensity * u2 / 2) 0 := by
    intro u1 u2 hu1 h12
    rcases le_or_lt 0 config.base_intensity with hb | hb
    · refine max_le_max ?_ (le_refl 0)
      have := mul_le_mul_of_nonneg_left h12 hb
      linarith
    · have h1 : config.base_intensity * u1 / 2 ≤ 0 := by
        have := mul_nonpos_of_nonpos_of_nonneg (le_of_lt hb) hu1
        linarith
      have h2 : config.base_intensity * u2 / 2 ≤ 0 := by
        have := mul_nonpos_of_nonpos_of_nonneg (le_of_lt hb)
          (le_trans hu1 h12)
        linarith
      rw [max_eq_right h1, max_eq_right h2]
  constructor
  · intro t p z y x1 x2 ht hp hz hy h12 hx2
    have h1 := ArrayGenerator.generate_cell ops config s0 a hgen c nm
      PatternType.gradient hpat _ hk t p z y x1 ht hp hz hy
      (lt_of_le_of_lt h12 hx2)
    have h2 := ArrayGenerator.generate_cell ops config s0 a hgen c nm
      PatternType.gradient hpat _ hk t p z y x2 ht hp hz hy hx2
    rw [h1, h2]
    apply hmono
    · positivity
    · have hc : (x1 : ℚ) ≤ (x2 : ℚ) := by exact_mod_cast h12
      have hdiv := (div_le_div_iff_of_pos_right hW).mpr hc
      exact add_le_add_right hdiv _
  · intro t p z y1 y2 x ht hp hz h12 hy2 hx
    have h1 := ArrayGenerator.generate_cell ops config s0 a hgen c nm
      PatternType.gradient hpat _ hk t p z y1 x ht hp hz
      (lt_of_le_of_lt h12 hy2) hx
    have h2 := ArrayGenerator.generate_cell ops config s0 a hgen c nm
      PatternType.gradient hpat _ hk t p z y2 x ht hp hz hy2 hx
    rw [h1, h2]
    apply hmono
    · positivity
    · have hc : (y1 : ℚ) ≤ (y2 : ℚ) := by exact_mod_cast h12
      have hdiv := (div_le_div_iff_of_pos_right hH).mpr hc
      exact add_le_add_left hdiv _

/-- Witness for C8: on the concrete 2x2 gradient frame, the sample at
(y,x) = (0,0) is at most the sample at (0,1), and the sample at (0,0) is
at most the one at (1,0). -/
theorem C8_witness :
    (generateOut constOps cfgGradient ⟨0, 0⟩).data.values.getD
      (layoutIndex cfgGradient.dimensions 0 0 0 0 0 0) 0 ≤
      (generateOut constOps cfgGradient ⟨0, 0⟩).data.values.getD
        (layoutIndex cfgGradient.dimensions 0 0 0 0 0 1) 0 ∧
    (generateOut constOps cfgGradient ⟨0, 0⟩).data.values.getD
      (layoutIndex cfgGradient.dimensions 0 0 0 0 0 0) 0 ≤
      (generateOut constOps cfgGradient ⟨0, 0⟩).data.values.getD
        (layoutIndex cfgGradient.dimensions 0 0 0 0 1 0) 0 := by
  have hgen := ArrayGenerator.generate_eq_ok constOps cfgGradient ⟨0, 0⟩
    rfl rfl
  have h := C8_gradient_monotone constOps cfgGradient ⟨0, 0⟩
    (generateOut constOps cfgGradient ⟨0, 0⟩) 0 "Ch1" rfl rfl hgen
  exact ⟨h.1 0 0 0 0 0 1 (by decide) (by decide) (by decide) (by decide)
      (by decide) (by decide),
    h.2 0 0 0 0 1 0 (by decide) (by decide) (by decide) (by decide)
      (by decide) (by decide)⟩

/-! ## Claim C9 -/

/-- Claim C9, amended: in a `GaussianSpots` channel with
`num_spots = n ≥ 1` and positive noise level, every pixel's additive
noise term is the single value `gsNoise ops n noise_level t`, which
depends only on the time index (first conjunct: every sample equals the
deterministic pattern value at the pixel plus that per-`t` noise, clamped
at zero) — because each spot iteration reseeds the global generator from
`(spot, t)` only, leaving it in the state `((n-1)*12345 + t*67890, 3)`
at the subsequent noise draw.  Consequently, two samples of the same
frame differ exactly by the difference of their deterministic pattern
values provided neither sample is clamped (second conjunct, with
non-negativity of `pattern value + noise` as the extra hypotheses the
clamp forces on the claim). -/
theorem C9_gauss_noise (ops : FloatOps) (config : GeneratorConfig)
    (s0 : RngState) (a : Array6D ℚ) (c : ℕ) (nm : String) (n : ℕ)
    (intensity : ℚ) (hn : n ≠ 0) (_hnl : 0 < config.noise_level)
    (hpat : config.channel_patterns[c]? =
      some (nm, PatternType.gaussianSpots n intensity))
    (hgen : ArrayGenerator.generate ops config s0 = Except.ok a) :
    (∀ t p z y x, t < config.dimensions.time →
      p < config.dimensions.position → z < config.dimensions.z →
      y < config.dimensions.height → x < config.dimensions.width →
      a.data.values.getD (layoutIndex config.dimensions t p z c y x) 0 =
        max (ArrayGenerator.gsValue ops config.dimensions t x y n
            intensity config.base_intensity +
          ArrayGenerator.gsNoise ops n config.noise_level t) 0) ∧
    (∀ t p1 z1 y1 x1 p2 z2 y2 x2, t < config.dimensions.time →
      p1 < config.dimensions.position → z1 < config.dimensions.z →
      y1 < config.dimensions.height → x1 < config.dimensions.width →
      p2 < config.dimensions.position → z2 < config.dimensions.z →
      y2 < config.dimensions.height → x2 < config.dimensions.width →
      0 ≤ ArrayGenerator.gsValue ops config.dimensions t x1 y1 n intensity
          config.base_intensity +
        ArrayGenerator.gsNoise ops n config.noise_level t →
      0 ≤ ArrayGenerator.gsValue ops config.dimensions t x2 y2 n intensity
          config.base_intensity +
        ArrayGenerator.gsNoise ops n config.noise_level t →
      a.data.values.getD (layoutIndex config.dimensions t p1 z1 c y1 x1) 0 -
        a.data.values.getD
          (layoutIndex config.dimensions t p2 z2 c y2 x2) 0 =
        ArrayGenerator.gsValue ops config.dimensions t x1 y1 n intensity
            config.base_intensity -
          ArrayGenerator.gsValue ops config.dimensions t x2 y2 n intensity
            config.base_intensity) := by
  have hk : ∀ coord s, ArrayGenerator.pixelValueAt ops config.dimensions
      (PatternType.gaussianSpots n intensity) config.base_intensity
      config.noise_level coord s =
      max (ArrayGenerator.gsValue ops config.dimensions coord.1
          coord.2.2.2.2 coord.2.2.2.1 n intensity config.base_intensity +
        ArrayGenerator.gsNoise ops n config.noise_level coord.1) 0 :=
    fun coord s => ArrayGenerator.pixelValueAt_gauss ops config.dimensions
      n intensity config.base_intensity config.noise_level coord s hn
  have hcell : ∀ t p z y x, t < config.dimensions.time →
      p < config.dimensions.position → z < config.dimensions.z →
      y < config.dimensions.height → x < config.dimensions.width →
      a.data.values.getD (layoutIndex config.dimensions t p z c y x) 0 =
        max (ArrayGenerator.gsValue ops config.dimensions t x y n
            intensity config.base_intensity +
          ArrayGenerator.gsNoise ops n config.noise_level t) 0 :=
    fun t p z y x ht hp hz hy hx =>
      ArrayGenerator.generate_cell ops config s0 a hgen c nm
        (PatternType.gaussianSpots n intensity) hpat _ hk t p z y x
        ht hp hz hy hx
  refine ⟨hcell, ?_⟩
  intro t p1 z1 y1 x1 p2 z2 y2 x2 ht hp1 hz1 hy1 hx1 hp2 hz2 hy2 hx2
    hpos1 hpos2
  rw [hcell t p1 z1 y1 x1 ht hp1 hz1 hy1 hx1,
    hcell t p2 z2 y2 x2 ht hp2 hz2 hy2 hx2,
    max_eq_left hpos1, max_eq_left hpos2]
  ring

/-- Claim C9, counterexample to the claim as stated: the clamp breaks the
sample-difference equality.  With one spot of intensity 10, zero base
intensity and noise level 5, under draws all 0 (spot at pixel (0,0) with
sigma 10) and an `exp` model that is exact at the two inspected cells
(`exp 0 = 1`; the far cell's argument is -112.5, where `f32` `exp`
underflows to exactly 0), the pattern values at y = 0 and y = 150 are 10
and 0 and the common noise is -5, so the samples are 5 and 0: their
difference 5 is not the pattern difference 10. -/
theorem C9_counterexample :
    ArrayGenerator.generate stepOps cfgGaussTall ⟨0, 0⟩ =
      Except.ok (generateOut stepOps cfgGaussTall ⟨0, 0⟩) ∧
    ArrayGenerator.gsValue stepOps cfgGaussTall.dimensions 0 0 0 1 10 0
      = 10 ∧
    ArrayGenerator.gsValue stepOps cfgGaussTall.dimensions 0 0 150 1 10 0
      = 0 ∧
    ArrayGenerator.gsNoise stepOps 1 cfgGaussTall.noise_level 0 = -5 ∧
    (generateOut stepOps cfgGaussTall ⟨0, 0⟩).data.values.getD
      (layoutIndex cfgGaussTall.dimensions 0 0 0 0 0 0) 0 = 5 ∧
    (generateOut stepOps cfgGaussTall ⟨0, 0⟩).data.values.getD
      (layoutIndex cfgGaussTall.dimensions 0 0 0 0 150 0) 0 = 0 ∧
    (5 : ℚ) - 0 ≠ 10 - 0 := by
  have hgen := ArrayGenerator.generate_eq_ok stepOps cfgGaussTall ⟨0, 0⟩
    rfl rfl
  have hv1 : ArrayGenerator.gsValue stepOps cfgGaussTall.dimensions 0 0 0
      1 10 0 = 10 := by
    simp [ArrayGenerator.gsValue, ArrayGenerator.gsContrib, stepOps,
      cfgGaussTall, Dimensions.new, List.range_succ]
  have hv2 : ArrayGenerator.gsValue stepOps cfgGaussTall.dimensions 0 0
      150 1 10 0 = 0 := by
    simp only [ArrayGenerator.gsValue, ArrayGenerator.gsContrib, stepOps,
      cfgGaussTall, Dimensions.new, List.range_succ, List.range_zero,
      List.nil_append, List.foldl_cons, List.foldl_nil]
    rw [if_neg (by norm_num)]
    norm_num
  have hnz : ArrayGenerator.gsNoise stepOps 1 cfgGaussTall.noise_level 0
      = -5 := by
    simp [ArrayGenerator.gsNoise, stepOps, cfgGaussTall]
  have hk : ∀ coord s, ArrayGenerator.pixelValueAt stepOps
      cfgGaussTall.dimensions (PatternType.gaussianSpots 1 10)
      cfgGaussTall.base_intensity cfgGaussTall.noise_level coord s =
      max (ArrayGenerator.gsValue stepOps cfgGaussTall.dimensions coord.1
          coord.2.2.2.2 coord.2.2.2.1 1 10 cfgGaussTall.base_intensity +
        ArrayGenerator.gsNoise stepOps 1 cfgGaussTall.noise_level
          coord.1) 0 :=
    fun coord s => ArrayGenerator.pixelValueAt_gauss stepOps
      cfgGaussTall.dimensions 1 10 cfgGaussTall.base_intensity
      cfgGaussTall.noise_level coord s (by norm_num)
  have hc1 := ArrayGenerator.generate_cell stepOps cfgGaussTall ⟨0, 0⟩
    (generateOut stepOps cfgGaussTall ⟨0, 0⟩) hgen 0 "Ch1"
    (PatternType.gaussianSpots 1 10) rfl _ hk 0 0 0 0 0
    (by decide) (by decide) (by decide) (by decide) (by decide)
  have hc2 := ArrayGenerator.generate_cell stepOps cfgGaussTall ⟨0, 0⟩
    (generateOut stepOps cfgGaussTall ⟨0, 0⟩) hgen 0 "Ch1"
    (PatternType.gaussianSpots 1 10) rfl _ hk 0 0 0 150 0
    (by decide) (by decide) (by decide) (by decide) (by decide)
  refine ⟨hgen, hv1, hv2, hnz, ?_, ?_, by norm_num⟩
  · rw [hc1]
    show max (ArrayGenerator.gsValue stepOps cfgGaussTall.dimensions 0 0 0
        1 10 cfgGaussTall.base_intensity +
      ArrayGenerator.gsNoise stepOps 1 cfgGaussTall.noise_level 0) 0 = 5
    rw [show cfgGaussTall.base_intensity = 0 from rfl] at *
    rw [hv1, hnz]
    norm_num
  · rw [hc2]
    show max (ArrayGenerator.gsValue stepOps cfgGaussTall.dimensions 0 0
        150 1 10 cfgGaussTall.base_intensity +
      ArrayGenerator.gsNoise stepOps 1 cfgGaussTall.noise_level 0) 0 = 0
    rw [show cfgGaussTall.base_intensity = 0 from rfl] at *
    rw [hv2, hnz]
    norm_num

/-- Witness for C9: on a concrete two-pixel GaussianSpots frame with no
clamping, the sample difference equals the pattern-value difference. -/
theorem C9_witness :
    (generateOut constOps cfgGauss ⟨0, 0⟩).data.values.getD
      (layoutIndex cfgGauss.dimensions 0 0 0 0 0 0) 0 -
    (generateOut constOps cfgGauss ⟨0, 0⟩).data.values.getD
      (layoutIndex cfgGauss.dimensions 0 0 0 0 0 1) 0 =
      ArrayGenerator.gsValue constOps cfgGauss.dimensions 0 0 0 1 10
          cfgGauss.base_intensity -
        ArrayGenerator.gsValue constOps cfgGauss.dimensions 0 1 0 1 10
          cfgGauss.base_intensity := by
  have hgen := ArrayGenerator.generate_eq_ok constOps cfgGauss ⟨0, 0⟩
    rfl rfl
  have h := C9_gauss_noise constOps cfgGauss ⟨0, 0⟩
    (generateOut constOps cfgGauss ⟨0, 0⟩) 0 "Ch1" 1 10 (by norm_num)
    (by norm_num [cfgGauss]) rfl hgen
  apply h.2 0 0 0 0 0 0 0 0 1 (by decide) (by decide) (by decide)
    (by decide) (by decide) (by decide) (by decide) (by decide) (by decide)
  · simp [ArrayGenerator.gsValue, ArrayGenerator.gsContrib,
      ArrayGenerator.gsNoise, constOps, cfgGauss, Dimensions.new,
      List.range_succ]
    norm_num
  · simp [ArrayGenerator.gsValue, ArrayGenerator.gsContrib,
      ArrayGenerator.gsNoise, constOps, cfgGauss, Dimensions.new,
      List.range_succ]
    norm_num

end Pyama
